import Mathlib

/-!
Verification development for the LLM-based online test answerer's analysis
pipeline (`deepseek.py`).  The Python code is shallowly embedded: JSON values
are an inductive type, the HTTP layer is an oracle of per-request outcomes,
and the orchestrator's mutable state (request trace, memory store, last error
kind) is threaded explicitly.  Python exceptions that can escape the
orchestrator are modelled as a `crashed` result kind.
-/

set_option maxRecDepth 100000

namespace DeepSeek

/-- Python whitespace for `str.strip()` (ASCII range). -/
def isPyWs (c : Char) : Bool :=
  c = ' ' || c = '\t' || c = '\n' || c = '\x0d' || c = '\x0b' || c = '\x0c'

/-- Drop leading Python whitespace. -/
def dropWs : List Char → List Char
  | [] => []
  | c :: r => if isPyWs c then dropWs r else c :: r

/-- Python `str.strip()`. -/
def pyStrip (s : String) : String :=
  String.mk (dropWs (dropWs s.data.reverse).reverse)

/-- Python `str.lower()` (ASCII case mapping suffices here). -/
def pyLowerStr (s : String) : String :=
  String.mk (s.data.map Char.toLower)

/-- JSON values as produced by Python's `json.loads`: `null`, booleans,
numbers (modelled exactly as rationals), strings, arrays, and objects
(association lists; later bindings shadow earlier ones on lookup, matching
Python dict construction). -/
inductive Json where
  | null : Json
  | bool (b : Bool) : Json
  | num (q : ℚ) : Json
  | str (s : String) : Json
  | arr (xs : List Json) : Json
  | obj (kvs : List (String × Json)) : Json

/-- Python truthiness of a JSON-derived value (`if x:`): `None`/`False`/`0`/
empty string/empty list/empty dict are falsy. -/
def Json.truthy : Json → Bool
  | .null => false
  | .bool b => b
  | .num q => if q = 0 then false else true
  | .str s => if s = "" then false else true
  | .arr xs => !xs.isEmpty
  | .obj kvs => !kvs.isEmpty

/-- Dictionary lookup where the last binding of a key wins, as in a Python
dict built by repeated insertion. -/
def jLookup (kvs : List (String × Json)) (k : String) : Option Json :=
  kvs.foldl (fun acc p => if p.1 = k then some p.2 else acc) none

/-- JSON whitespace accepted by Python's `json` module. -/
def isWsChar (c : Char) : Bool :=
  c = ' ' || c = '\t' || c = '\n' || c = '\r'

/-- Drop leading JSON whitespace. -/
def skipWs : List Char → List Char
  | [] => []
  | c :: rest => if isWsChar c then skipWs rest else c :: rest

/-- Hexadecimal digit value, for `\uXXXX` escapes. -/
def hexVal (c : Char) : Option Nat :=
  if '0' ≤ c ∧ c ≤ '9' then some (c.toNat - 48)
  else if 'a' ≤ c ∧ c ≤ 'f' then some (c.toNat - 87)
  else if 'A' ≤ c ∧ c ≤ 'F' then some (c.toNat - 55)
  else none

/-- Parse the body of a JSON string literal (after the opening quote),
accumulating characters in reverse. -/
def parseStrAux : Nat → List Char → List Char → Option (String × List Char)
  | 0, _, _ => none
  | n + 1, cs, acc =>
    match cs with
    | [] => none
    | '"' :: rest => some (String.mk acc.reverse, rest)
    | '\\' :: e :: rest =>
      if e = '"' then parseStrAux n rest ('"' :: acc)
      else if e = '\\' then parseStrAux n rest ('\\' :: acc)
      else if e = '/' then parseStrAux n rest ('/' :: acc)
      else if e = 'b' then parseStrAux n rest ('\x08' :: acc)
      else if e = 'f' then parseStrAux n rest ('\x0c' :: acc)
      else if e = 'n' then parseStrAux n rest ('\n' :: acc)
      else if e = 'r' then parseStrAux n rest ('\x0d' :: acc)
      else if e = 't' then parseStrAux n rest ('\t' :: acc)
      else if e = 'u' then
        match rest with
        | a :: b :: c :: d :: rest2 =>
          match hexVal a, hexVal b, hexVal c, hexVal d with
          | some x1, some x2, some x3, some x4 =>
            parseStrAux n rest2 (Char.ofNat (((x1 * 16 + x2) * 16 + x3) * 16 + x4) :: acc)
          | _, _, _, _ => none
        | _ => none
      else none
    | c :: rest => parseStrAux n rest (c :: acc)

/-- Numeric value of a digit list. -/
def digitsToNat (ds : List Char) : Nat :=
  ds.foldl (fun a c => a * 10 + (c.toNat - 48)) 0

/-- Optional fraction part of a JSON number. -/
def parseFrac : List Char → Option (ℚ × List Char)
  | '.' :: r =>
    let p := r.span Char.isDigit
    if p.1.isEmpty then none
    else some ((digitsToNat p.1 : ℚ) / (10 : ℚ) ^ p.1.length, p.2)
  | cs => some (0, cs)

/-- Optional exponent part of a JSON number. -/
def parseExp : List Char → Option (Int × List Char)
  | c :: r =>
    if c = 'e' ∨ c = 'E' then
      let sr : Bool × List Char :=
        match r with
        | '-' :: r2 => (true, r2)
        | '+' :: r2 => (false, r2)
        | r2 => (false, r2)
      let p := sr.2.span Char.isDigit
      if p.1.isEmpty then none
      else some (if sr.1 then -(digitsToNat p.1 : Int) else (digitsToNat p.1 : Int), p.2)
    else some (0, c :: r)
  | [] => some (0, [])

/-- Parse a JSON number (strict grammar: no leading zeros, fraction and
exponent need at least one digit).  Numbers without a fraction or exponent
take a direct integer path (the value is the same either way). -/
def parseNum (cs : List Char) : Option (Json × List Char) :=
  let sgn : Bool × List Char := match cs with | '-' :: r => (true, r) | _ => (false, cs)
  let ip := sgn.2.span Char.isDigit
  if ip.1.isEmpty then none
  else if 1 < ip.1.length ∧ ip.1.head? = some '0' then none
  else
    let hasFracOrExp : Bool :=
      match ip.2 with
      | '.' :: _ => true
      | 'e' :: _ => true
      | 'E' :: _ => true
      | _ => false
    if hasFracOrExp then
      match parseFrac ip.2 with
      | none => none
      | some (fq, cs3) =>
        match parseExp cs3 with
        | none => none
        | some (e, cs4) =>
          let base : ℚ := (digitsToNat ip.1 : ℚ) + fq
          let scaled : ℚ :=
            if 0 ≤ e then base * (10 : ℚ) ^ e.toNat else base / (10 : ℚ) ^ (-e).toNat
          some (.num (if sgn.1 then -scaled else scaled), cs4)
    else
      some (.num (if sgn.1 then -(digitsToNat ip.1 : ℚ) else (digitsToNat ip.1 : ℚ)), ip.2)

mutual

/-- Parse one JSON value (recursive descent, fuel-bounded). -/
def parseVal : Nat → List Char → Option (Json × List Char)
  | 0, _ => none
  | n + 1, cs =>
    match skipWs cs with
    | [] => none
    | c :: rest =>
      if c = '\x7b' then
        match skipWs rest with
        | '\x7d' :: r2 => some (.obj [], r2)
        | r2 => parseMembers n r2 []
      else if c = '[' then
        match skipWs rest with
        | ']' :: r2 => some (.arr [], r2)
        | r2 => parseElems n r2 []
      else if c = '"' then
        match parseStrAux (rest.length + 1) rest [] with
        | some (s, r2) => some (.str s, r2)
        | none => none
      else if c = 't' then
        match rest with
        | 'r' :: 'u' :: 'e' :: r2 => some (.bool true, r2)
        | _ => none
      else if c = 'f' then
        match rest with
        | 'a' :: 'l' :: 's' :: 'e' :: r2 => some (.bool false, r2)
        | _ => none
      else if c = 'n' then
        match rest with
        | 'u' :: 'l' :: 'l' :: r2 => some (.null, r2)
        | _ => none
      else parseNum (c :: rest)

/-- Parse the members of a JSON object (after the opening brace, first
member not yet consumed). -/
def parseMembers : Nat → List Char → List (String × Json) →
    Option (Json × List Char)
  | 0, _, _ => none
  | n + 1, cs, acc =>
    match skipWs cs with
    | '"' :: rest =>
      match parseStrAux (rest.length + 1) rest [] with
      | some (k, r2) =>
        match skipWs r2 with
        | ':' :: r3 =>
          match parseVal n r3 with
          | some (v, r4) =>
            match skipWs r4 with
            | ',' :: r5 => parseMembers n r5 (acc ++ [(k, v)])
            | '\x7d' :: r5 => some (.obj (acc ++ [(k, v)]), r5)
            | _ => none
          | none => none
        | _ => none
      | none => none
    | _ => none

/-- Parse the elements of a JSON array (after the opening bracket, first
element not yet consumed). -/
def parseElems : Nat → List Char → List Json → Option (Json × List Char)
  | 0, _, _ => none
  | n + 1, cs, acc =>
    match parseVal n cs with
    | some (v, rest) =>
      match skipWs rest with
      | ',' :: r2 => parseElems n r2 (acc ++ [v])
      | ']' :: r2 => some (.arr (acc ++ [v]), r2)
      | _ => none
    | none => none

end

/-- Model of Python's `json.loads` on text: parse one JSON value and require
that only whitespace remains (otherwise `json.loads` raises). -/
def loads (s : String) : Option Json :=
  match parseVal (2 * s.length + 2) s.data with
  | some (v, rest) => if (skipWs rest).isEmpty then some v else none
  | none => none

/-- Whether the haystack starts with the needle. -/
def listStartsWith : List Char → List Char → Bool
  | _, [] => true
  | [], _ :: _ => false
  | h :: hs, p :: ps => h = p && listStartsWith hs ps

/-- Substring containment on character lists (Python's `needle in text`). -/
def listContains : List Char → List Char → Bool
  | [], n => n.isEmpty
  | h :: hs, n => listStartsWith (h :: hs) n || listContains hs n

/-- Python `"```" in text`: the fenced-code-block marker test of
`parse_json_strict`. -/
def hasCodeFence (s : String) : Bool :=
  listContains s.data "```".data

/-- First index of a character (Python `str.find`, `none` for -1). -/
def findIdx (cs : List Char) (c : Char) : Option Nat :=
  match cs with
  | [] => none
  | h :: rest => if h = c then some 0 else (findIdx rest c).map (· + 1)

/-- Last index of a character (Python `str.rfind`, `none` for -1). -/
def rfindIdx (cs : List Char) (c : Char) : Option Nat :=
  (findIdx cs.reverse c).map (fun i => cs.length - 1 - i)

/-- The substring `text[start : end + 1]` between the first `{` and the last
`}`, when both exist with `end > start` (the brace-span rule shared by the
second and third recovery tiers of `parse_json_strict`). -/
def braceSpan (s : String) : Option String :=
  match findIdx s.data '\x7b', rfindIdx s.data '\x7d' with
  | some i, some j =>
    if i < j then some (String.mk ((s.data.drop i).take (j - i + 1))) else none
  | _, _ => none

/-- `DeepSeekClient.parse_json_strict` (deepseek.py lines 717-743): empty
text gives `None`; otherwise try `json.loads` on the whole text, then (only
when a code fence marker occurs) on the brace span, then unconditionally on
the brace span. -/
def parse_json_strict (text : String) : Option Json :=
  if text = "" then none
  else
    match loads text with
    | some v => some v
    | none =>
      match (if hasCodeFence text then (braceSpan text).bind loads else none) with
      | some v => some v
      | none => (braceSpan text).bind loads

/-! ### Memory store (`DeepSeekClient._update_memory`, deepseek.py 692-715) -/

/-- The client's in-memory knowledge store (deepseek.py 82-85).  The Python
`set` of related topics is modelled as a duplicate-free list; `topic_counts`
is an association list with unique keys. -/
structure Memory where
  related_topics : List String
  background_knowledge : List String
  topic_counts : List (String × Nat)
  topic_total_count : Nat

/-- The store as initialised in `__init__`: everything empty. -/
def initMemory : Memory := ⟨[], [], [], 0⟩

/-- `topic_counts.get(t, 0)`. -/
def countOf : List (String × Nat) → String → Nat
  | [], _ => 0
  | p :: rest, t => if p.1 = t then p.2 else countOf rest t

/-- `topic_counts[t] = v` (overwrite or insert). -/
def setCount : List (String × Nat) → String → Nat → List (String × Nat)
  | [], t, v => [(t, v)]
  | p :: rest, t, v => if p.1 = t then (t, v) :: rest else p :: setCount rest t v

/-- Record one mention of a (already stripped, nonempty) topic:
`related_topics.add`, `topic_counts[t] += 1`, `topic_total_count += 1`. -/
def addTopic (m : Memory) (t : String) : Memory :=
  { m with
    related_topics :=
      if t ∈ m.related_topics then m.related_topics else m.related_topics ++ [t]
    topic_counts := setCount m.topic_counts t (countOf m.topic_counts t + 1)
    topic_total_count := m.topic_total_count + 1 }

/-- The `for t in topics` loop of `_update_memory`: only strings with
nonempty strip are recorded. -/
def addTopics : Memory → List Json → Memory
  | m, [] => m
  | m, v :: rest =>
    match v with
    | .str s => if pyStrip s = "" then addTopics m rest else addTopics (addTopic m (pyStrip s)) rest
    | _ => addTopics m rest

/-- Append the stripped background text when it is a nonempty string not
already present (exact-string dedup). -/
def appendBackground (m : Memory) (background : Json) : Memory :=
  match background with
  | .str s =>
    if pyStrip s = "" then m
    else if pyStrip s ∈ m.background_knowledge then m
    else { m with background_knowledge := m.background_knowledge ++ [pyStrip s] }
  | _ => m

/-- The decay pass: when the total is positive and the active set nonempty,
drop every active topic whose mention share is below 10 percent.  The Python
code compares `count / total < 0.10` in floats; this is the exact rational
comparison `10 * count < total`, which agrees with the float comparison for
every total below astronomical sizes (the two can only differ when
`count / total` falls within one double ulp of 1/10). -/
def evictLow (m : Memory) : Memory :=
  if 0 < m.topic_total_count ∧ m.related_topics ≠ [] then
    { m with
      related_topics :=
        m.related_topics.filter
          (fun t => if m.topic_total_count ≤ 10 * countOf m.topic_counts t then true else false) }
  else m

/-- `DeepSeekClient._update_memory(topics, background)`: background append,
then topic recording (only when `topics` is a list), then the decay pass. -/
def update_memory (m : Memory) (topics : Json) (background : Json) : Memory :=
  let m1 := appendBackground m background
  let m2 :=
    match topics with
    | .arr ts => addTopics m1 ts
    | _ => m1
  evictLow m2

/-! ### Python-semantics helpers used by the orchestrator -/

/-- Python `a or b` on JSON-derived values. -/
def pyOr (a b : Json) : Json := if a.truthy then a else b

/-- `d.get(k)` with `None` for a missing key; raises unless `d` is a dict. -/
def pyGet (j : Json) (k : String) : Except String Json :=
  match j with
  | .obj kvs => .ok ((jLookup kvs k).getD .null)
  | _ => .error "AttributeError"

/-- `d.get(k, default)`; raises unless `d` is a dict. -/
def pyGetD (j : Json) (k : String) (d : Json) : Except String Json :=
  match j with
  | .obj kvs => .ok ((jLookup kvs k).getD d)
  | _ => .error "AttributeError"

/-- `(d.get(k) or default)`. -/
def pyGetOr (j : Json) (k : String) (d : Json) : Except String Json := do
  let v ← pyGet j k
  pure (pyOr v d)

/-- `.lower()`; raises on non-strings. -/
def pyLower : Json → Except String String
  | .str s => .ok (pyLowerStr s)
  | _ => .error "AttributeError"

/-- `isinstance(x, (int, float))` — Python bools are ints. -/
def pyIsNumber : Json → Bool
  | .num _ => true
  | .bool _ => true
  | _ => false

/-- `int(x)` for values already known numeric: truncation toward zero. -/
def pyTruncNum : Json → Int
  | .num q => Int.tdiv q.num (q.den : Int)
  | .bool b => if b then 1 else 0
  | _ => 0

/-- Unguarded Python `int(x)`: truncates numbers toward zero, converts
bools, parses integer strings (optional surrounding whitespace and sign),
raises on everything else. -/
def pyIntChecked : Json → Except String Int
  | .num q => .ok (Int.tdiv q.num (q.den : Int))
  | .bool b => .ok (if b then 1 else 0)
  | .str s =>
    let sg : Bool × List Char :=
      match (pyStrip s).data with
      | '-' :: r => (true, r)
      | '+' :: r => (false, r)
      | r => (false, r)
    if sg.2 ≠ [] ∧ sg.2.all Char.isDigit then
      .ok (if sg.1 then -(digitsToNat sg.2 : Int) else (digitsToNat sg.2 : Int))
    else .error "ValueError"
  | _ => .error "TypeError"

/-- Iterating a JSON value as Python does: lists yield elements, strings
yield single-character strings, dicts yield their keys; other values raise
`TypeError`. -/
def pyIter : Json → Except String (List Json)
  | .arr xs => .ok xs
  | .str s => .ok (s.data.map (fun c => .str (String.mk [c])))
  | .obj kvs => .ok (kvs.map (fun p => .str p.1))
  | _ => .error "TypeError"

/-- Truthiness of a `parse_json_strict` result (`if preflight_json:`). -/
def optTruthy : Option Json → Bool
  | none => false
  | some v => v.truthy

/-- `parse_json_strict` applied to a message that may be any JSON value: on
a non-string argument each tier raises internally, the exception is caught,
and the function yields None. -/
def parse_json_strict_of : Json → Option Json
  | .str s => parse_json_strict s
  | _ => none

/-! ### Model-tier gating (deepseek.py 338-344) -/

/-- The strict stage-2 gate: use the reasoning tier only when the review
recommends "reasoner" and the suggested thinking length is numeric with
`int(suggest_len) >= 128`. -/
def use_reasoner (recommended_model : String) (suggest_len : Json) : Bool :=
  (if recommended_model = "reasoner" then true else false)
    && pyIsNumber suggest_len
    && (if 128 ≤ pyTruncNum suggest_len then true else false)

/-! ### Request layer (`DeepSeekClient._send_request`, deepseek.py 745-847)

One HTTP attempt either returns the response body (a JSON value) or fails
with a classified error kind; `_send_request` never raises.  The network is
an oracle assigning an outcome to each request, in order. -/

/-- Error classification of a failed request attempt. -/
inductive ErrKind where
  | timeout : ErrKind
  | network : ErrKind
  | http : ErrKind
  | unknown : ErrKind
deriving DecidableEq

/-- Outcome of one request attempt: parsed response body, or a failure. -/
inductive Outcome where
  | ok (body : Json) : Outcome
  | err (k : ErrKind) : Outcome

/-- The network, as a map from request ordinal to outcome. -/
abbrev Oracle := Nat → Outcome

/-- The configuration fields the orchestrator reads. -/
structure Config where
  fast_model : String
  reasoning_model : String
  single_stage_model : String
  retry_attempts : Nat

/-- One recorded request: its stage label and the model it was sent with. -/
structure Req where
  stage : String
  model : String
deriving DecidableEq

/-- Orchestrator state threaded through a run: next oracle index, request
trace, `_last_error_kind`, and the memory store. -/
structure RunState where
  idx : Nat
  reqs : List Req
  lastErr : Option ErrKind
  mem : Memory

/-- `_send_request`: consume the next oracle outcome, record the request,
and update `_last_error_kind` (cleared on success, set on failure). -/
def sendRequest (o : Oracle) (st : RunState) (stage model : String) :
    Outcome × RunState :=
  let out := o st.idx
  let le : Option ErrKind := match out with | .ok _ => none | .err k => some k
  (out, { st with idx := st.idx + 1, reqs := st.reqs ++ [⟨stage, model⟩], lastErr := le })

/-- `(data or {}).get("choices", [{}])[0].get("message", {}).get("content", "")`:
the message-content extraction applied to each response body; raises on
structurally unexpected bodies. -/
def contentOf (body : Json) : Except String Json := do
  let base := pyOr body (.obj [])
  let choices ← pyGetD base "choices" (.arr [.obj []])
  let first ←
    match choices with
    | .arr (x :: _) => Except.ok x
    | _ => Except.error "IndexError"
  let msg ← pyGetD first "message" (.obj [])
  pyGetD msg "content" (.str "")

/-- The usage display (deepseek.py 434-448): `(data or {}).get("usage", {})`
followed, when truthy, by `.get` calls that require a dict. -/
def usageCheck (body : Json) : Except String Unit := do
  let base := pyOr body (.obj [])
  let u ← pyGetD base "usage" (.obj [])
  if u.truthy then
    match u with
    | .obj _ => .ok ()
    | _ => .error "AttributeError"
  else .ok ()

/-- The background block of the stage-2 system prompt (deepseek.py 356-360):
when the store's background list is empty the raw review background is
concatenated into a string, which raises unless it is a string. -/
def memoryBgBlock (m : Memory) (background : Json) : Except String Unit :=
  if m.background_knowledge.isEmpty then
    match background with
    | .str _ => .ok ()
    | _ => .error "TypeError"
  else .ok ()

/-- The stage-2 options block (deepseek.py 375-377): iterate `options`
without filtering and call `.get` on each element. -/
def optionsBlockCheck (options : Json) : Except String Unit := do
  let es ← pyIter options
  let _ ← es.mapM (fun e => do
    let _ ← pyGet e "label"
    let _ ← pyGet e "text"
    pure ())
  pure ()

/-- A canonical successful chat-completion body carrying one message. -/
def mkBody (s : String) : Json :=
  .obj [("choices", .arr [.obj [("message", .obj [("content", .str s)])]])]

/-! ### Multi-stage flow (`DeepSeekClient._send_multi_stage`, deepseek.py 98-475) -/

/-- The observable result of a multi-stage run. -/
inductive RKind where
  | nonQuestion (content_summary : Json) : RKind
  | answered (result : Json) : RKind
  | answerParseFailed (raw : Json) : RKind
  | noAnswer : RKind
  | crashed (e : String) : RKind

/-- The stage-2 answer request as assembled by the orchestrator. -/
structure AnswerPayload where
  model : String
  question : Json
  options : Json
  choice_type : String
  suggest_len : Json

/-- Full observable outcome of a multi-stage run: result, request trace,
final memory, and the stage-2 payload when stage 2 was assembled. -/
structure MultiResult where
  kind : RKind
  requests : List Req
  memory : Memory
  stage2 : Option AnswerPayload

/-- Tag errors of an extraction step with the memory state at the raise. -/
def wr (m : Memory) : Except String α → Except (String × Memory) α :=
  fun x => x.mapError (fun e => (e, m))

/-- Outcome of the parsed-review processing (deepseek.py 229-333): either an
early non-question return or the extracted question data for stage 2;
either way the updated memory. -/
inductive ReviewStep where
  | nonQuestion (content_summary : Json) (m : Memory) : ReviewStep
  | question (question options : Json) (choice_type recommended_model : String)
      (suggest_len background : Json) (m : Memory) : ReviewStep

/-- The parsed branch of stage 1: field extraction (in source order, with
each Python raise point modelled), the unconditional memory update, and the
non-question early return. -/
def reviewStage (text : String) (r : Json) (m : Memory) :
    Except (String × Memory) ReviewStep := do
  let ctv ← wr m (pyGetOr r "content_type" (.str "question"))
  let content_type ← wr m (pyLower ctv)
  let background ← wr m (pyGetOr r "background_knowledge" (.str ""))
  let topics ← wr m (pyGetOr r "related_topics" (.arr []))
  let m' := update_memory m topics background
  if content_type ≠ "question" then do
    let a ← wr m' (pyGet r "content_summary")
    let b ← wr m' (pyGet r "fixed_text")
    let c ← wr m' (pyGet r "question")
    let _ ← wr m' (pyIter topics)
    pure (ReviewStep.nonQuestion (pyOr a (pyOr b (pyOr c (.str text)))) m')
  else do
    let qv ← wr m' (pyGet r "question")
    let fv ← wr m' (pyGet r "fixed_text")
    let question := pyOr qv (pyOr fv (.str text))
    let options ← wr m' (pyGetOr r "options" (.arr []))
    let ch1 ← wr m' (pyGet r "choice_type")
    let ch2 ← wr m' (pyGet r "question_kind")
    let choice_type ← wr m' (pyLower (pyOr ch1 (pyOr ch2 (.str "none"))))
    let rmv ← wr m' (pyGet r "recommended_model")
    let recommended_model ← wr m' (pyLower (pyOr rmv (.str "reasoner")))
    let slv ← wr m' (pyGet r "suggest_thinking_length")
    let suggest_len := pyOr slv (.num 64)
    let _ ← wr m' (pyIter options)
    let _ ← wr m' (pyIter topics)
    let _ ← wr m' (pyIntChecked suggest_len)
    pure (ReviewStep.question question options choice_type recommended_model
      suggest_len background m')

/-- The stage-1 retry loop (deepseek.py 167-211): up to `retry_attempts`
identical requests with the fast model, stopping at the first truthy parse. -/
def stage1Loop (cfg : Config) (o : Oracle) :
    Nat → RunState → Option Json → RunState × Except String (Option Json)
  | 0, st, pj => (st, .ok pj)
  | n + 1, st, pj =>
    let r := sendRequest o st "preprocessing" cfg.fast_model
    match r.1 with
    | .err _ => stage1Loop cfg o n r.2 pj
    | .ok body =>
      match contentOf body with
      | .error e => (r.2, .error e)
      | .ok msg =>
        let pj' := parse_json_strict_of msg
        if optTruthy pj' then (r.2, .ok pj') else stage1Loop cfg o n r.2 pj'

/-- Stage-2 answer handling after a successful request: the usage display,
message-content extraction, strict parse, and final panel. -/
def finishAnswer (st : RunState) (body : Json) (p : AnswerPayload) : MultiResult :=
  match usageCheck body with
  | .error e => ⟨.crashed e, st.reqs, st.mem, some p⟩
  | .ok _ =>
    match contentOf body with
    | .error e => ⟨.crashed e, st.reqs, st.mem, some p⟩
    | .ok msg =>
      if optTruthy (parse_json_strict_of msg) then
        ⟨.answered ((parse_json_strict_of msg).getD .null), st.reqs, st.mem, some p⟩
      else ⟨.answerParseFailed msg, st.reqs, st.mem, some p⟩

/-- Stage 2 (deepseek.py 335-475): strict gating picks the answering model,
one request is sent, and on a request-level failure with a non-fast
answering model exactly one fallback request with the fast model follows. -/
def stage2Run (cfg : Config) (o : Oracle) (st : RunState)
    (question options : Json) (choice_type recommended_model : String)
    (suggest_len background : Json) : MultiResult :=
  let answer_model :=
    if use_reasoner recommended_model suggest_len then cfg.reasoning_model
    else cfg.fast_model
  match memoryBgBlock st.mem background with
  | .error e => ⟨.crashed e, st.reqs, st.mem, none⟩
  | .ok _ =>
    match optionsBlockCheck options with
    | .error e => ⟨.crashed e, st.reqs, st.mem, none⟩
    | .ok _ =>
      let p : AnswerPayload := ⟨answer_model, question, options, choice_type, suggest_len⟩
      let r1 := sendRequest o st "formal answering" answer_model
      match r1.1 with
      | .ok body => finishAnswer r1.2 body p
      | .err _ =>
        if answer_model = cfg.fast_model then ⟨.noAnswer, r1.2.reqs, r1.2.mem, some p⟩
        else
          let r2 := sendRequest o r1.2 "formal answering (fallback)" cfg.fast_model
          match r2.1 with
          | .ok body => finishAnswer r2.2 body p
          | .err _ => ⟨.noAnswer, r2.2.reqs, r2.2.mem, some p⟩

/-- `DeepSeekClient._send_multi_stage`: stage-1 retry loop; on a truthy
parse the review branch (with its non-question early return), otherwise the
degraded default (raw text as question, no options, `choice_type` "none",
`recommended_model` "reasoner", `suggest_len` 64); then stage 2. -/
def runMulti (cfg : Config) (text : String) (m : Memory) (o : Oracle) : MultiResult :=
  let s1 := stage1Loop cfg o cfg.retry_attempts ⟨0, [], none, m⟩ none
  match s1.2 with
  | .error e => ⟨.crashed e, s1.1.reqs, s1.1.mem, none⟩
  | .ok pj =>
    match pj with
    | some r =>
      if r.truthy then
        match reviewStage text r s1.1.mem with
        | .error (e, m') => ⟨.crashed e, s1.1.reqs, m', none⟩
        | .ok (.nonQuestion cs m') => ⟨.nonQuestion cs, s1.1.reqs, m', none⟩
        | .ok (.question q opts ct rm sl bg m') =>
          stage2Run cfg o { s1.1 with mem := m' } q opts ct rm sl bg
      else
        stage2Run cfg o s1.1 (.str text) (.arr []) "none" "reasoner" (.num 64) (.str "")
    | none =>
      stage2Run cfg o s1.1 (.str text) (.arr []) "none" "reasoner" (.num 64) (.str "")

/-! ### Single-stage flow (`DeepSeekClient._send_single_stage`,
deepseek.py 478-689) -/

/-- The observable result of a single-stage run. -/
inductive SKind where
  | failed (raw : Json) : SKind
  | nonQuestion (content_summary : Json) : SKind
  | answered (finalSection : Json) : SKind
  | crashed (e : String) : SKind

/-- Full observable outcome of a single-stage run. -/
structure SingleResult where
  kind : SKind
  requests : List Req
  memory : Memory

/-- The single-stage retry loop (deepseek.py 535-586): after a failed
attempt whose error kind is timeout, a non-fast current model is downgraded
to the fast model for the remaining attempts; a successful attempt stores
body and content and stops the loop at the first truthy parse. -/
def singleLoop (cfg : Config) (o : Oracle) :
    Nat → RunState → String → Option Json → Option Json → Option Json →
    RunState × Except String (Option Json × Option Json × Option Json)
  | 0, st, _, data, msg, parsed => (st, .ok (data, msg, parsed))
  | n + 1, st, cur, data, msg, parsed =>
    let r := sendRequest o st "single-stage" cur
    match r.1 with
    | .err k =>
      if cur ≠ cfg.fast_model ∧ k = .timeout then
        singleLoop cfg o n r.2 cfg.fast_model data msg parsed
      else singleLoop cfg o n r.2 cur data msg parsed
    | .ok body =>
      match contentOf body with
      | .error e => (r.2, .error e)
      | .ok msg' =>
        let parsed' := parse_json_strict_of msg'
        if optTruthy parsed' then (r.2, .ok (some body, some msg', parsed'))
        else singleLoop cfg o n r.2 cur (some body) (some msg') parsed'

/-- Outcome of the single-stage review section: non-question early return
or the `final` section, with the updated memory. -/
inductive SReviewStep where
  | nonQuestion (content_summary : Json) (m : Memory) : SReviewStep
  | question (finalSection : Json) (m : Memory) : SReviewStep

/-- The single-stage review/final processing (deepseek.py 597-689), raise
points modelled in source order. -/
def singleReviewStage (text : String) (p : Json) (m : Memory) :
    Except (String × Memory) SReviewStep := do
  let review ← wr m (pyGetOr p "review" (.obj []))
  let qv ← wr m (pyGet review "question")
  let fv ← wr m (pyGet review "fixed_text")
  let cleaned_question := pyOr qv (pyOr fv (.str text))
  let options ← wr m (pyGetOr review "options" (.arr []))
  let ctv ← wr m (pyGetOr review "content_type" (.str "question"))
  let content_type ← wr m (pyLower ctv)
  let ch1 ← wr m (pyGet review "choice_type")
  let ch2 ← wr m (pyGet review "question_kind")
  let _ ← wr m (pyLower (pyOr ch1 (pyOr ch2 (.str "none"))))
  let background ← wr m (pyGetOr review "background_knowledge" (.str ""))
  let topics ← wr m (pyGetOr review "related_topics" (.arr []))
  let m' := update_memory m topics background
  if content_type ≠ "question" then do
    let a ← wr m' (pyGet review "content_summary")
    let b ← wr m' (pyGet review "fixed_text")
    let c ← wr m' (pyGet review "question")
    let _ ← wr m' (pyIter topics)
    pure (SReviewStep.nonQuestion (pyOr a (pyOr b (pyOr c cleaned_question))) m')
  else do
    let _ ← wr m' (pyIter options)
    let _ ← wr m' (pyIter topics)
    let finalSection ← wr m' (pyGetOr p "final" (.obj []))
    pure (SReviewStep.question finalSection m')

/-- `DeepSeekClient._send_single_stage`: retry loop with timeout downgrade;
if the last body or parse is falsy, the failure panel (which raises
`NameError` when no attempt ever yielded a body); otherwise the review
section and the `final` answer section. -/
def runSingle (cfg : Config) (text : String) (m : Memory) (o : Oracle) : SingleResult :=
  let s := singleLoop cfg o cfg.retry_attempts ⟨0, [], none, m⟩
    cfg.single_stage_model none none none
  match s.2 with
  | .error e => ⟨.crashed e, s.1.reqs, s.1.mem⟩
  | .ok (data, msg, parsed) =>
    match data, parsed with
    | some b, some p =>
      if b.truthy && p.truthy then
        match singleReviewStage text p s.1.mem with
        | .error (e, m') => ⟨.crashed e, s.1.reqs, m'⟩
        | .ok (.nonQuestion cs m') => ⟨.nonQuestion cs, s.1.reqs, m'⟩
        | .ok (.question fin m') => ⟨.answered fin, s.1.reqs, m'⟩
      else
        match msg with
        | none => ⟨.crashed "NameError", s.1.reqs, s.1.mem⟩
        | some raw => ⟨.failed raw, s.1.reqs, s.1.mem⟩
    | _, _ =>
      match msg with
      | none => ⟨.crashed "NameError", s.1.reqs, s.1.mem⟩
      | some raw => ⟨.failed raw, s.1.reqs, s.1.mem⟩

/-! ### Shared facts about the embedded pipeline -/

/-- A request outcome delivering a standard chat-completion body whose
message content does not parse to a truthy JSON value. -/
def okUnparseable (out : Outcome) : Prop :=
  ∃ s, out = .ok (mkBody s) ∧ optTruthy (parse_json_strict_of (.str s)) = false

/-- An outcome unusable for a review attempt: a failed request, or a
well-formed body with unparseable content. -/
def unusable (out : Outcome) : Prop :=
  (∃ k, out = .err k) ∨ okUnparseable out

theorem contentOf_mkBody (s : String) : contentOf (mkBody s) = .ok (.str s) := rfl

theorem usageCheck_mkBody (s : String) : usageCheck (mkBody s) = .ok () := rfl

/-- Stage 2 never mutates the memory store. -/
theorem stage2Run_mem (cfg : Config) (o : Oracle) (st : RunState)
    (q opts : Json) (ct rm : String) (sl bg : Json) :
    (stage2Run cfg o st q opts ct rm sl bg).memory = st.mem := by
  unfold stage2Run finishAnswer
  simp only [sendRequest]
  repeat' split
  all_goals rfl

/-- When every oracle outcome in range is unusable, the stage-1 loop runs
all `n` attempts with the identical preprocessing request and ends with a
falsy parse result. -/
theorem stage1Loop_unusable (cfg : Config) (o : Oracle) (n : Nat) :
    ∀ (st : RunState) (pj : Option Json),
    (∀ j, j < n → unusable (o (st.idx + j))) → optTruthy pj = false →
    ∃ pj' le, stage1Loop cfg o n st pj =
      ({ st with idx := st.idx + n,
                 reqs := st.reqs ++ List.replicate n ⟨"preprocessing", cfg.fast_model⟩,
                 lastErr := le }, .ok pj') ∧ optTruthy pj' = false := by
  induction n with
  | zero =>
    intro st pj _ hpj
    exact ⟨pj, st.lastErr, by simp [stage1Loop], hpj⟩
  | succ n ih =>
    intro st pj h hpj
    have h0 := h 0 (Nat.succ_pos n)
    have hshift : ∀ j, j < n → unusable (o (st.idx + 1 + j)) := by
      intro j hj
      have := h (j + 1) (Nat.succ_lt_succ hj)
      simpa [Nat.add_assoc, Nat.add_comm 1 j] using this
    rw [Nat.add_zero] at h0
    rcases h0 with ⟨k, hk⟩ | ⟨s, hs, hps⟩
    · have hrec := ih
        ⟨st.idx + 1, st.reqs ++ [⟨"preprocessing", cfg.fast_model⟩], some k, st.mem⟩ pj
        (by simpa using hshift) hpj
      rcases hrec with ⟨pj', le, heq, hfalsy⟩
      refine ⟨pj', le, ?_, hfalsy⟩
      simp only [stage1Loop, sendRequest, hk]
      rw [heq]
      simp [Nat.add_assoc, Nat.add_comm 1 n, List.append_assoc, List.replicate_succ]
    · have hrec := ih
        ⟨st.idx + 1, st.reqs ++ [⟨"preprocessing", cfg.fast_model⟩], none, st.mem⟩
        (parse_json_strict_of (.str s)) (by simpa using hshift) hps
      rcases hrec with ⟨pj', le, heq, hfalsy⟩
      refine ⟨pj', le, ?_, hfalsy⟩
      simp only [stage1Loop, sendRequest, hs, contentOf_mkBody, hps]
      rw [heq]
      simp [Nat.add_assoc, Nat.add_comm 1 n, List.append_assoc, List.replicate_succ]

theorem memoryBgBlock_str (m : Memory) (s : String) :
    memoryBgBlock m (.str s) = .ok () := by
  unfold memoryBgBlock
  split <;> rfl

/-- The degraded default fails the 128-token gate (64 < 128), so stage 2 is
assembled with the fast model and issues exactly one request — the fallback
cannot trigger because the answering model is already the fast tier. -/
theorem stage2_degraded (cfg : Config) (o : Oracle) (st : RunState) (text : String) :
    (stage2Run cfg o st (.str text) (.arr []) "none" "reasoner" (.num 64) (.str "")).requests =
        st.reqs ++ [⟨"formal answering", cfg.fast_model⟩] ∧
    (stage2Run cfg o st (.str text) (.arr []) "none" "reasoner" (.num 64) (.str "")).stage2 =
        some ⟨cfg.fast_model, .str text, .arr [], "none", .num 64⟩ := by
  unfold stage2Run finishAnswer
  rw [memoryBgBlock_str]
  simp only [show use_reasoner "reasoner" (.num 64) = false from rfl, Bool.false_eq_true,
    if_false, sendRequest, show optionsBlockCheck (.arr []) = .ok () from rfl]
  cases o st.idx with
  | ok body =>
    simp only []
    repeat' split
    all_goals simp
  | err k =>
    simp

/-- Same situation when the answer-stage outcome is a well-formed but
unparseable body: the run ends in `answerParseFailed`. -/
theorem stage2_degraded_unparseable (cfg : Config) (o : Oracle) (st : RunState)
    (text : String) (h : okUnparseable (o st.idx)) :
    ∃ s, (stage2Run cfg o st (.str text) (.arr []) "none" "reasoner" (.num 64) (.str "")).kind =
        .answerParseFailed (.str s) := by
  obtain ⟨s, hs, hps⟩ := h
  refine ⟨s, ?_⟩
  unfold stage2Run finishAnswer
  rw [memoryBgBlock_str]
  simp only [show use_reasoner "reasoner" (.num 64) = false from rfl, Bool.false_eq_true,
    if_false, sendRequest, show optionsBlockCheck (.arr []) = .ok () from rfl, hs,
    usageCheck_mkBody, contentOf_mkBody, hps]

/-- When every oracle outcome in range is a well-formed unparseable body,
the single-stage loop runs all `n` attempts with the configured model
(no timeout ever occurs, so no downgrade) and ends with a falsy parse. -/
theorem singleLoop_unparseable (cfg : Config) (o : Oracle) (n : Nat) :
    ∀ (st : RunState) (cur : String) (data msg parsed : Option Json),
    (∀ j, j < n → okUnparseable (o (st.idx + j))) → optTruthy parsed = false →
    ∃ data' msg' parsed' le, singleLoop cfg o n st cur data msg parsed =
      ({ st with idx := st.idx + n,
                 reqs := st.reqs ++ List.replicate n ⟨"single-stage", cur⟩,
                 lastErr := le }, .ok (data', msg', parsed')) ∧
      optTruthy parsed' = false ∧
      ((n = 0 ∧ data' = data ∧ msg' = msg) ∨
        ∃ s, data' = some (mkBody s) ∧ msg' = some (.str s)) := by
  induction n with
  | zero =>
    intro st cur data msg parsed _ hfal
    exact ⟨data, msg, parsed, st.lastErr, by simp [singleLoop], hfal, Or.inl ⟨rfl, rfl, rfl⟩⟩
  | succ n ih =>
    intro st cur data msg parsed h hfal
    have h0 := h 0 (Nat.succ_pos n)
    rw [Nat.add_zero] at h0
    obtain ⟨s, hs, hps⟩ := h0
    have hshift : ∀ j, j < n → okUnparseable (o (st.idx + 1 + j)) := by
      intro j hj
      have := h (j + 1) (Nat.succ_lt_succ hj)
      simpa [Nat.add_assoc, Nat.add_comm 1 j] using this
    have hrec := ih
      ⟨st.idx + 1, st.reqs ++ [⟨"single-stage", cur⟩], none, st.mem⟩ cur
      (some (mkBody s)) (some (.str s)) (parse_json_strict_of (.str s))
      (by simpa using hshift) hps
    rcases hrec with ⟨data', msg', parsed', le, heq, hfal', hdisj⟩
    refine ⟨data', msg', parsed', le, ?_, hfal', ?_⟩
    · simp only [singleLoop, sendRequest, hs, contentOf_mkBody, hps]
      rw [heq]
      simp [Nat.add_assoc, Nat.add_comm 1 n, List.append_assoc, List.replicate_succ]
    · rcases hdisj with ⟨_, hd, hm⟩ | hex
      · exact Or.inr ⟨s, hd, hm⟩
      · exact Or.inr hex

/-- Fixtures for the concrete counterexamples and witnesses. -/
def cfgR1 : Config := ⟨"deepseek-chat", "deepseek-reasoner", "deepseek-chat", 1⟩

def cfgR3 : Config := ⟨"deepseek-chat", "deepseek-reasoner", "deepseek-chat", 3⟩

def orcJunk : Oracle := fun _ => .ok (mkBody "junk")

def orcT : Oracle := fun i => if i = 0 then .err .timeout else .ok (mkBody "junk")

/-- C1 (counterexample): with one retry attempt failing, the degraded
stage-2 request carries the raw text, no options and choice_type "none" as
claimed, but it is issued with the fast tier, not the reasoning tier: the
degraded default suggest length is 64, below the 128 gate. -/
theorem C1_counterexample :
    (runMulti cfgR1 "q" initMemory orcT).stage2 =
      some ⟨cfgR1.fast_model, .str "q", .arr [], "none", .num 64⟩ ∧
    (runMulti cfgR1 "q" initMemory orcT).requests =
      [⟨"preprocessing", "deepseek-chat"⟩, ⟨"formal answering", "deepseek-chat"⟩] ∧
    cfgR1.fast_model ≠ cfgR1.reasoning_model :=
  ⟨rfl, rfl, by decide⟩

/-- C1 (amended): if stage-1 review parsing fails after all retry attempts,
the orchestrator substitutes the degraded default — raw input text as the
question, no options, choice_type "none", recommended model "reasoner" with
suggested thinking length 64 — and, because 64 is below the 128 gate, the
stage-2 answer request is issued with the fast tier. -/
theorem C1_degraded_default (cfg : Config) (text : String) (m : Memory) (o : Oracle)
    (h : ∀ j, j < cfg.retry_attempts → unusable (o j)) :
    (runMulti cfg text m o).stage2 =
      some ⟨cfg.fast_model, .str text, .arr [], "none", .num 64⟩ ∧
    (runMulti cfg text m o).requests =
      List.replicate cfg.retry_attempts ⟨"preprocessing", cfg.fast_model⟩ ++
        [⟨"formal answering", cfg.fast_model⟩] := by
  unfold runMulti
  obtain ⟨pj', le, heq, hfalsy⟩ :=
    stage1Loop_unusable cfg o cfg.retry_attempts ⟨0, [], none, m⟩ none (by simpa using h) rfl
  rw [heq]
  have hreq := stage2_degraded cfg o
    ⟨0 + cfg.retry_attempts, [] ++ List.replicate cfg.retry_attempts
      ⟨"preprocessing", cfg.fast_model⟩, le, m⟩ text
  cases pj' with
  | none =>
    simp only [Nat.zero_add, List.nil_append] at hreq ⊢
    exact ⟨hreq.2, hreq.1⟩
  | some r =>
    have hr : r.truthy = false := by simpa [optTruthy] using hfalsy
    simp only [hr, Bool.false_eq_true, if_false]
    simp only [Nat.zero_add, List.nil_append] at hreq ⊢
    exact ⟨hreq.2, hreq.1⟩

theorem C1_degraded_default_witness :
    (runMulti cfgR1 "q" initMemory orcJunk).stage2 =
      some ⟨cfgR1.fast_model, .str "q", .arr [], "none", .num 64⟩ ∧
    (runMulti cfgR1 "q" initMemory orcJunk).requests =
      List.replicate cfgR1.retry_attempts ⟨"preprocessing", cfgR1.fast_model⟩ ++
        [⟨"formal answering", cfgR1.fast_model⟩] :=
  C1_degraded_default cfgR1 "q" initMemory orcJunk
    (fun _ _ => Or.inr ⟨"junk", rfl, rfl⟩)

/-- C10: when stage-1 review parsing fails after all retries, the memory
store is completely unchanged by the run: the degraded path never calls the
memory update, and stage 2 never mutates the store. -/
theorem C10_degraded_memory_unchanged (cfg : Config) (text : String) (m : Memory)
    (o : Oracle) (h : ∀ j, j < cfg.retry_attempts → unusable (o j)) :
    (runMulti cfg text m o).memory = m := by
  unfold runMulti
  obtain ⟨pj', le, heq, hfalsy⟩ :=
    stage1Loop_unusable cfg o cfg.retry_attempts ⟨0, [], none, m⟩ none (by simpa using h) rfl
  rw [heq]
  have hmem := stage2Run_mem cfg o
    ⟨0 + cfg.retry_attempts, [] ++ List.replicate cfg.retry_attempts
      ⟨"preprocessing", cfg.fast_model⟩, le, m⟩
    (.str text) (.arr []) "none" "reasoner" (.num 64) (.str "")
  cases pj' with
  | none => simpa using hmem
  | some r =>
    have hr : r.truthy = false := by simpa [optTruthy] using hfalsy
    simp only [hr, Bool.false_eq_true, if_false]
    simpa using hmem

theorem C10_degraded_memory_unchanged_witness :
    (runMulti cfgR1 "q" initMemory orcJunk).memory = initMemory :=
  C10_degraded_memory_unchanged cfgR1 "q" initMemory orcJunk
    (fun _ _ => Or.inr ⟨"junk", rfl, rfl⟩)

/-- C2 (counterexample): with `retry_attempts = 1` and every attempt
yielding a well-formed but unparseable payload, the multi-stage run makes
two requests, not one: the N review attempts are followed by one degraded
stage-2 attempt.  The single-stage run makes exactly one. -/
theorem C2_counterexample :
    cfgR1.retry_attempts = 1 ∧
    (runMulti cfgR1 "q" initMemory orcJunk).requests.length = 2 ∧
    (runSingle cfgR1 "q" initMemory orcJunk).requests.length = 1 :=
  ⟨rfl, rfl, rfl⟩

/-- C2 (amended): with `retry_attempts = N ≥ 1` and every request attempt
yielding a payload from which no JSON object can be parsed, each pipeline
mode returns a failed outcome exactly once and never lets an exception
escape: the single-stage run makes exactly N attempts, while the
multi-stage run makes exactly N+1 (N review attempts plus the one degraded
stage-2 attempt). -/
theorem C2_retries_exhausted (cfg : Config) (text : String) (m : Memory) (o : Oracle)
    (hN : 0 < cfg.retry_attempts) (h : ∀ j, okUnparseable (o j)) :
    ((runMulti cfg text m o).requests.length = cfg.retry_attempts + 1 ∧
      ∃ raw, (runMulti cfg text m o).kind = .answerParseFailed raw) ∧
    ((runSingle cfg text m o).requests.length = cfg.retry_attempts ∧
      ∃ raw, (runSingle cfg text m o).kind = .failed raw) := by
  constructor
  · unfold runMulti
    obtain ⟨pj', le, heq, hfalsy⟩ :=
      stage1Loop_unusable cfg o cfg.retry_attempts ⟨0, [], none, m⟩ none
        (by intro j hj; have := h j; exact Or.inr (by simpa using this)) rfl
    rw [heq]
    have hst : (⟨0 + cfg.retry_attempts, [] ++ List.replicate cfg.retry_attempts
        ⟨"preprocessing", cfg.fast_model⟩, le, m⟩ : RunState).idx = cfg.retry_attempts := by
      simp
    have hreq := stage2_degraded cfg o
      ⟨0 + cfg.retry_attempts, [] ++ List.replicate cfg.retry_attempts
        ⟨"preprocessing", cfg.fast_model⟩, le, m⟩ text
    have hkind := stage2_degraded_unparseable cfg o
      ⟨0 + cfg.retry_attempts, [] ++ List.replicate cfg.retry_attempts
        ⟨"preprocessing", cfg.fast_model⟩, le, m⟩ text (by rw [hst]; exact h _)
    obtain ⟨s, hks⟩ := hkind
    cases pj' with
    | none =>
      constructor
      · rw [hreq.1]
        simp
      · exact ⟨.str s, hks⟩
    | some r =>
      have hr : r.truthy = false := by simpa [optTruthy] using hfalsy
      simp only [hr, Bool.false_eq_true, if_false]
      constructor
      · rw [hreq.1]
        simp
      · exact ⟨.str s, hks⟩
  · unfold runSingle
    obtain ⟨data', msg', parsed', le, heq, hfal', hdisj⟩ :=
      singleLoop_unparseable cfg o cfg.retry_attempts ⟨0, [], none, m⟩
        cfg.single_stage_model none none none (by intro j hj; simpa using h j) rfl
    rw [heq]
    rcases hdisj with ⟨hz, _, _⟩ | ⟨s, hd, hm⟩
    · omega
    · subst hd hm
      cases parsed' with
      | none =>
        constructor
        · simp
        · exact ⟨.str s, rfl⟩
      | some p =>
        have hp : p.truthy = false := by simpa [optTruthy] using hfal'
        have hmk : (mkBody s).truthy = true := rfl
        refine ⟨?_, ⟨.str s, ?_⟩⟩ <;> simp [hmk, hp]

theorem C2_retries_exhausted_witness :
    ((runMulti cfgR1 "q" initMemory orcJunk).requests.length = cfgR1.retry_attempts + 1 ∧
      ∃ raw, (runMulti cfgR1 "q" initMemory orcJunk).kind = .answerParseFailed raw) ∧
    ((runSingle cfgR1 "q" initMemory orcJunk).requests.length = cfgR1.retry_attempts ∧
      ∃ raw, (runSingle cfgR1 "q" initMemory orcJunk).kind = .failed raw) :=
  C2_retries_exhausted cfgR1 "q" initMemory orcJunk (by decide)
    (fun _ => ⟨"junk", rfl, rfl⟩)

/-- Python's `int()` truncation agrees with the exact rational comparison
at the 128 threshold. -/
theorem trunc_ge_128_iff (q : ℚ) : 128 ≤ pyTruncNum (.num q) ↔ (128 : ℚ) ≤ q := by
  show 128 ≤ Int.tdiv q.num (q.den : Int) ↔ _
  rcases le_or_lt 0 q.num with hn | hn
  · rw [Int.tdiv_eq_ediv hn (by exact_mod_cast Nat.zero_le _)]
    rw [show q.num / (q.den : Int) = Rat.floor q from (Rat.floor_def' q).symm]
    exact Rat.le_floor
  · constructor
    · intro h
      exfalso
      have hpos : 0 ≤ (-q.num).tdiv (q.den : Int) :=
        Int.tdiv_nonneg (by omega) (by exact_mod_cast Nat.zero_le _)
      rw [Int.neg_tdiv] at hpos
      omega
    · intro h
      exfalso
      have hq : (0 : ℚ) ≤ q := le_trans (by norm_num) h
      rw [← Rat.num_nonneg] at hq
      omega

/-- C4: the answering model is the reasoning tier iff the review recommends
"reasoner" and the suggested thinking length is a number at least 128; in
every other case (127, non-numeric values, "chat" with any length, Python
booleans) the fast tier is chosen. -/
theorem C4_model_gate :
    (∀ (rm : String) (sl : Json),
      use_reasoner rm sl = true ↔ (rm = "reasoner" ∧ ∃ q : ℚ, sl = .num q ∧ 128 ≤ q)) ∧
    use_reasoner "reasoner" (.num 127) = false ∧
    use_reasoner "reasoner" (.num 128) = true ∧
    use_reasoner "chat" (.num 9999) = false := by
  refine ⟨?_, rfl, rfl, rfl⟩
  intro rm sl
  constructor
  · intro h
    unfold use_reasoner at h
    rw [Bool.and_eq_true, Bool.and_eq_true] at h
    obtain ⟨⟨h1, h2⟩, h3⟩ := h
    have hrm : rm = "reasoner" := by
      by_contra hc
      simp [hc] at h1
    refine ⟨hrm, ?_⟩
    cases sl with
    | num q =>
      refine ⟨q, rfl, ?_⟩
      rw [← trunc_ge_128_iff]
      simpa using h3
    | bool b =>
      exfalso
      cases b <;> simp [pyTruncNum] at h3
    | null => simp [pyIsNumber] at h2
    | str s => simp [pyIsNumber] at h2
    | arr xs => simp [pyIsNumber] at h2
    | obj kvs => simp [pyIsNumber] at h2
  · rintro ⟨hrm, q, hsl, hq⟩
    subst hrm hsl
    unfold use_reasoner
    simp [pyIsNumber, (trunc_ge_128_iff q).mpr hq]

/-! ### Memory-store invariants -/

theorem boolOfProp_eq_true (c : Prop) [Decidable c] :
    ((if c then true else false) = true) ↔ c := by
  by_cases h : c <;> simp [h]

theorem countOf_setCount (cs : List (String × Nat)) (t : String) (v : Nat) (u : String) :
    countOf (setCount cs t v) u = if u = t then v else countOf cs u := by
  induction cs with
  | nil =>
    by_cases h : u = t
    · simp [setCount, countOf, h]
    · simp [setCount, countOf, h, Ne.symm h]
  | cons p rest ih =>
    by_cases hp : p.1 = t
    · by_cases hu : u = t
      · simp [setCount, countOf, hp, hu]
      · have : p.1 ≠ u := by rw [hp]; exact Ne.symm hu
        simp [setCount, countOf, hp, hu, Ne.symm hu, this]
    · by_cases hpu : p.1 = u
      · have : u ≠ t := by rw [← hpu]; exact fun h => hp h
        simp [setCount, countOf, hp, hpu, this]
      · simp [setCount, countOf, hp, hpu, ih]

theorem addTopic_count (m : Memory) (t u : String) :
    countOf (addTopic m t).topic_counts u =
      if u = t then countOf m.topic_counts t + 1 else countOf m.topic_counts u := by
  simp [addTopic, countOf_setCount]

theorem addTopic_mem (m : Memory) (t u : String) :
    u ∈ (addTopic m t).related_topics ↔ u ∈ m.related_topics ∨ u = t := by
  simp only [addTopic]
  split
  · rename_i h
    constructor
    · exact Or.inl
    · rintro (h1 | rfl)
      · exact h1
      · exact h
  · simp [List.mem_append]

theorem addTopics_count_ge (ts : List Json) : ∀ (m : Memory) (u : String),
    countOf m.topic_counts u ≤ countOf (addTopics m ts).topic_counts u := by
  induction ts with
  | nil => intro m u; simp [addTopics]
  | cons v rest ih =>
    intro m u
    cases v with
    | str s =>
      by_cases h : pyStrip s = ""
      · simpa [addTopics, h] using ih m u
      · refine le_trans ?_ (by simpa [addTopics, h] using ih (addTopic m (pyStrip s)) u)
        rw [addTopic_count]
        split
        · rename_i he
          rw [he]
          omega
        · exact le_refl _
    | null => simpa [addTopics] using ih m u
    | bool b => simpa [addTopics] using ih m u
    | num q => simpa [addTopics] using ih m u
    | arr xs => simpa [addTopics] using ih m u
    | obj kvs => simpa [addTopics] using ih m u

theorem addTopics_total_ge (ts : List Json) : ∀ (m : Memory),
    m.topic_total_count ≤ (addTopics m ts).topic_total_count := by
  induction ts with
  | nil => intro m; simp [addTopics]
  | cons v rest ih =>
    intro m
    cases v with
    | str s =>
      by_cases h : pyStrip s = ""
      · simpa [addTopics, h] using ih m
      · refine le_trans ?_ (by simpa [addTopics, h] using ih (addTopic m (pyStrip s)))
        simp [addTopic]
    | null => simpa [addTopics] using ih m
    | bool b => simpa [addTopics] using ih m
    | num q => simpa [addTopics] using ih m
    | arr xs => simpa [addTopics] using ih m
    | obj kvs => simpa [addTopics] using ih m

theorem addTopics_mem (ts : List Json) : ∀ (m : Memory) (u : String),
    u ∈ (addTopics m ts).related_topics ↔
      u ∈ m.related_topics ∨
        countOf m.topic_counts u < countOf (addTopics m ts).topic_counts u := by
  induction ts with
  | nil => intro m u; simp [addTopics]
  | cons v rest ih =>
    intro m u
    have step : ∀ (m' : Memory), u ∈ (addTopics m' rest).related_topics ↔
        u ∈ m'.related_topics ∨
          countOf m'.topic_counts u < countOf (addTopics m' rest).topic_counts u :=
      fun m' => ih m' u
    cases v with
    | str s =>
      by_cases h : pyStrip s = ""
      · simpa [addTopics, h] using step m
      · simp only [addTopics, h, if_false]
        rw [step (addTopic m (pyStrip s)), addTopic_mem]
        have hcnt := addTopic_count m (pyStrip s) u
        by_cases hu : u = pyStrip s
        · subst hu
          rw [if_pos rfl] at hcnt
          have hge := addTopics_count_ge rest (addTopic m (pyStrip s)) (pyStrip s)
          have hlt : countOf m.topic_counts (pyStrip s) <
              countOf (addTopics (addTopic m (pyStrip s)) rest).topic_counts (pyStrip s) := by
            omega
          constructor
          · intro _
            exact Or.inr hlt
          · intro _
            exact Or.inl (Or.inr rfl)
        · simp only [if_neg hu] at hcnt
          rw [hcnt]
          constructor
          · rintro ((h1 | h2) | h3)
            · exact Or.inl h1
            · exact absurd h2 hu
            · exact Or.inr h3
          · rintro (h1 | h3)
            · exact Or.inl (Or.inl h1)
            · exact Or.inr h3
    | null => simpa [addTopics] using step m
    | bool b => simpa [addTopics] using step m
    | num q => simpa [addTopics] using step m
    | arr xs => simpa [addTopics] using step m
    | obj kvs => simpa [addTopics] using step m

theorem addTopics_lt_total (ts : List Json) : ∀ (m : Memory) (u : String),
    countOf m.topic_counts u < countOf (addTopics m ts).topic_counts u →
    m.topic_total_count < (addTopics m ts).topic_total_count := by
  induction ts with
  | nil => intro m u h; simp [addTopics] at h
  | cons v rest ih =>
    intro m u h
    cases v with
    | str s =>
      by_cases hs : pyStrip s = ""
      · simp only [addTopics, hs, if_pos] at h ⊢
        exact ih m u h
      · simp only [addTopics, hs, if_neg, if_false] at h ⊢
        calc m.topic_total_count < (addTopic m (pyStrip s)).topic_total_count := by
              simp [addTopic]
          _ ≤ (addTopics (addTopic m (pyStrip s)) rest).topic_total_count :=
              addTopics_total_ge rest _
    | null => simp only [addTopics] at h ⊢; exact ih m u h
    | bool b => simp only [addTopics] at h ⊢; exact ih m u h
    | num q => simp only [addTopics] at h ⊢; exact ih m u h
    | arr xs => simp only [addTopics] at h ⊢; exact ih m u h
    | obj kvs => simp only [addTopics] at h ⊢; exact ih m u h

theorem addTopics_le_total (ts : List Json) : ∀ (m : Memory),
    (∀ u, countOf m.topic_counts u ≤ m.topic_total_count) →
    ∀ u, countOf (addTopics m ts).topic_counts u ≤ (addTopics m ts).topic_total_count := by
  induction ts with
  | nil => intro m h u; simpa [addTopics] using h u
  | cons v rest ih =>
    intro m h u
    cases v with
    | str s =>
      by_cases hs : pyStrip s = ""
      · simp only [addTopics, hs, if_pos]
        exact ih m h u
      · simp only [addTopics, hs, if_neg, if_false]
        refine ih (addTopic m (pyStrip s)) ?_ u
        intro w
        rw [addTopic_count]
        show (if w = pyStrip s then _ else _) ≤ m.topic_total_count + 1
        split
        · exact Nat.succ_le_succ (h _)
        · exact le_trans (h w) (Nat.le_succ _)
    | null => simp only [addTopics]; exact ih m h u
    | bool b => simp only [addTopics]; exact ih m h u
    | num q => simp only [addTopics]; exact ih m h u
    | arr xs => simp only [addTopics]; exact ih m h u
    | obj kvs => simp only [addTopics]; exact ih m h u

theorem appendBackground_fields (m : Memory) (bg : Json) :
    (appendBackground m bg).topic_counts = m.topic_counts ∧
    (appendBackground m bg).related_topics = m.related_topics ∧
    (appendBackground m bg).topic_total_count = m.topic_total_count := by
  cases bg <;> unfold appendBackground <;> (repeat' split) <;> simp

theorem evictLow_fields (m : Memory) :
    (evictLow m).topic_counts = m.topic_counts ∧
    (evictLow m).background_knowledge = m.background_knowledge ∧
    (evictLow m).topic_total_count = m.topic_total_count := by
  unfold evictLow
  split <;> exact ⟨rfl, rfl, rfl⟩

/-- The store invariant: the active set is exactly the topics whose mention
share is at least 10 percent, and no count exceeds the total. -/
def memInv (m : Memory) : Prop :=
  (∀ t, t ∈ m.related_topics ↔
      0 < m.topic_total_count ∧ m.topic_total_count ≤ 10 * countOf m.topic_counts t) ∧
  (∀ t, countOf m.topic_counts t ≤ m.topic_total_count)

theorem memInv_init : memInv initMemory := by
  constructor
  · intro t
    simp [initMemory]
  · intro t
    simp [initMemory, countOf]

theorem memInv_evict (m1 m2 : Memory) (h : memInv m1)
    (K1 : ∀ u, countOf m1.topic_counts u ≤ countOf m2.topic_counts u)
    (K2 : m1.topic_total_count ≤ m2.topic_total_count)
    (K3 : ∀ u, u ∈ m2.related_topics ↔
        u ∈ m1.related_topics ∨ countOf m1.topic_counts u < countOf m2.topic_counts u)
    (K4 : ∀ u, countOf m1.topic_counts u < countOf m2.topic_counts u →
        m1.topic_total_count < m2.topic_total_count)
    (K5 : ∀ u, countOf m2.topic_counts u ≤ m2.topic_total_count) :
    memInv (evictLow m2) := by
  have hmem2 : ∀ t, 0 < m2.topic_total_count →
      m2.topic_total_count ≤ 10 * countOf m2.topic_counts t → t ∈ m2.related_topics := by
    intro t hpos hle
    rw [K3]
    by_cases hc : countOf m1.topic_counts t < countOf m2.topic_counts t
    · exact Or.inr hc
    · left
      have heq : countOf m1.topic_counts t = countOf m2.topic_counts t :=
        Nat.le_antisymm (K1 t) (Nat.not_lt.mp hc)
      have hc1 : 0 < countOf m2.topic_counts t := by omega
      have hpos1 : 0 < m1.topic_total_count := by
        have := h.2 t
        omega
      refine (h.1 t).mpr ⟨hpos1, ?_⟩
      omega
  constructor
  · intro t
    rw [(evictLow_fields m2).1, (evictLow_fields m2).2.2]
    unfold evictLow
    split
    · rename_i hg
      simp only [List.mem_filter, boolOfProp_eq_true]
      constructor
      · rintro ⟨_, hle⟩
        exact ⟨hg.1, hle⟩
      · rintro ⟨hpos, hle⟩
        exact ⟨hmem2 t hpos hle, hle⟩
    · rename_i hg
      rw [not_and_or] at hg
      rcases hg with hz | hrel
      · have hz0 : m2.topic_total_count = 0 := by omega
        constructor
        · intro hmem
          exfalso
          rcases (K3 t).mp hmem with h1 | h2
          · have := (h.1 t).mp h1
            omega
          · have := K4 t h2
            omega
        · intro hc
          omega
      · have hrel0 : m2.related_topics = [] := by
          by_contra hc
          exact hrel hc
        constructor
        · intro hmem
          rw [hrel0] at hmem
          exact absurd hmem (List.not_mem_nil t)
        · rintro ⟨hpos, hle⟩
          have := hmem2 t hpos hle
          rw [hrel0] at this
          exact absurd this (List.not_mem_nil t)
  · intro t
    rw [(evictLow_fields m2).1, (evictLow_fields m2).2.2]
    exact K5 t

theorem memInv_update (m : Memory) (topics bg : Json) (h : memInv m) :
    memInv (update_memory m topics bg) := by
  have hb := appendBackground_fields m bg
  have h1 : memInv (appendBackground m bg) := by
    constructor
    · intro t
      rw [hb.1, hb.2.1, hb.2.2]
      exact h.1 t
    · intro t
      rw [hb.1, hb.2.2]
      exact h.2 t
  have htriv : memInv (evictLow (appendBackground m bg)) := by
    refine memInv_evict _ _ h1 (fun u => le_refl _) (le_refl _) ?_ ?_ h1.2
    · intro u
      simp
    · intro u hu
      exact absurd hu (lt_irrefl _)
  cases topics with
  | arr ts =>
    show memInv (evictLow (addTopics (appendBackground m bg) ts))
    refine memInv_evict _ _ h1 (addTopics_count_ge ts _) (addTopics_total_ge ts _)
      (addTopics_mem ts _) (addTopics_lt_total ts _) (addTopics_le_total ts _ h1.2)
  | null => exact htriv
  | bool b => exact htriv
  | num q => exact htriv
  | str s => exact htriv
  | obj kvs => exact htriv

/-- Any store reachable by a sequence of update calls from the initial
store satisfies the invariant. -/
theorem memInv_foldl (us : List (Json × Json)) :
    ∀ (m : Memory), memInv m →
    memInv (us.foldl (fun acc p => update_memory acc p.1 p.2) m) := by
  induction us with
  | nil => intro m h; exact h
  | cons p rest ih =>
    intro m h
    exact ih _ (memInv_update m p.1 p.2 h)

/-- The memory store after a sequence of update calls from the initial
store. -/
def applyUpdates (updates : List (Json × Json)) : Memory :=
  updates.foldl (fun acc p => update_memory acc p.1 p.2) initMemory

/-- C5: after every call to the memory update operation, a topic is in
`related_topics` iff its mention share is at least 10 percent at that
update (`10 * count ≥ total` with a positive total, the exact form of
`count / total ≥ 0.10`); the update never decrements any count or the
total; and eviction changes only `related_topics`, keeping `topic_counts`,
`background_knowledge` and `topic_total_count` intact. -/
theorem C5_memory_invariant :
    (∀ (updates : List (Json × Json)) (t : String),
      t ∈ (applyUpdates updates).related_topics ↔
        0 < (applyUpdates updates).topic_total_count ∧
        (applyUpdates updates).topic_total_count ≤
          10 * countOf (applyUpdates updates).topic_counts t) ∧
    (∀ (m : Memory) (topics bg : Json) (t : String),
      countOf m.topic_counts t ≤ countOf (update_memory m topics bg).topic_counts t ∧
      m.topic_total_count ≤ (update_memory m topics bg).topic_total_count) ∧
    (∀ m : Memory, (evictLow m).topic_counts = m.topic_counts ∧
      (evictLow m).background_knowledge = m.background_knowledge ∧
      (evictLow m).topic_total_count = m.topic_total_count) := by
  refine ⟨?_, ?_, evictLow_fields⟩
  · intro updates t
    exact (memInv_foldl updates initMemory memInv_init).1 t
  · intro m topics bg t
    have hb := appendBackground_fields m bg
    have hcount : ∀ (m2 : Memory),
        (update_memory m topics bg).topic_counts =
          (match topics with
            | Json.arr ts => addTopics (appendBackground m bg) ts
            | _ => appendBackground m bg).topic_counts → True := fun _ _ => trivial
    clear hcount
    cases topics with
    | arr ts =>
      constructor
      · calc countOf m.topic_counts t
            = countOf (appendBackground m bg).topic_counts t := by rw [hb.1]
          _ ≤ countOf (addTopics (appendBackground m bg) ts).topic_counts t :=
            addTopics_count_ge ts _ t
          _ = countOf (update_memory m (.arr ts) bg).topic_counts t := by
            show _ = countOf (evictLow _).topic_counts t
            rw [(evictLow_fields _).1]
      · calc m.topic_total_count
            = (appendBackground m bg).topic_total_count := by rw [hb.2.2]
          _ ≤ (addTopics (appendBackground m bg) ts).topic_total_count :=
            addTopics_total_ge ts _
          _ = (update_memory m (.arr ts) bg).topic_total_count := by
            show _ = (evictLow _).topic_total_count
            rw [(evictLow_fields _).2.2]
    | null =>
      constructor
      · show _ ≤ countOf (evictLow _).topic_counts t
        rw [(evictLow_fields _).1, hb.1]
      · show _ ≤ (evictLow _).topic_total_count
        rw [(evictLow_fields _).2.2, hb.2.2]
    | bool b =>
      constructor
      · show _ ≤ countOf (evictLow _).topic_counts t
        rw [(evictLow_fields _).1, hb.1]
      · show _ ≤ (evictLow _).topic_total_count
        rw [(evictLow_fields _).2.2, hb.2.2]
    | num q =>
      constructor
      · show _ ≤ countOf (evictLow _).topic_counts t
        rw [(evictLow_fields _).1, hb.1]
      · show _ ≤ (evictLow _).topic_total_count
        rw [(evictLow_fields _).2.2, hb.2.2]
    | str s =>
      constructor
      · show _ ≤ countOf (evictLow _).topic_counts t
        rw [(evictLow_fields _).1, hb.1]
      · show _ ≤ (evictLow _).topic_total_count
        rw [(evictLow_fields _).2.2, hb.2.2]
    | obj kvs =>
      constructor
      · show _ ≤ countOf (evictLow _).topic_counts t
        rw [(evictLow_fields _).1, hb.1]
      · show _ ≤ (evictLow _).topic_total_count
        rw [(evictLow_fields _).2.2, hb.2.2]

/-- C9: updating twice with the same single topic and the same non-empty
background string appends the background exactly once (exact-string dedup)
while the topic stays active with count 2 (of total 2). -/
theorem C9_double_update (s b : String)
    (hs1 : pyStrip s = s) (hs2 : s ≠ "") (hb1 : pyStrip b = b) (hb2 : b ≠ "") :
    (update_memory (update_memory initMemory (.arr [.str s]) (.str b))
        (.arr [.str s]) (.str b)).background_knowledge = [b] ∧
    s ∈ (update_memory (update_memory initMemory (.arr [.str s]) (.str b))
        (.arr [.str s]) (.str b)).related_topics ∧
    countOf (update_memory (update_memory initMemory (.arr [.str s]) (.str b))
        (.arr [.str s]) (.str b)).topic_counts s = 2 ∧
    (update_memory (update_memory initMemory (.arr [.str s]) (.str b))
        (.arr [.str s]) (.str b)).topic_total_count = 2 := by
  have h1 : update_memory initMemory (.arr [.str s]) (.str b) =
      ⟨[s], [b], [(s, 1)], 1⟩ := by
    unfold update_memory appendBackground addTopics addTopic evictLow
    simp [hs1, hs2, hb1, hb2, initMemory, countOf, setCount, addTopics]
  rw [h1]
  have h2 : update_memory ⟨[s], [b], [(s, 1)], 1⟩ (.arr [.str s]) (.str b) =
      ⟨[s], [b], [(s, 2)], 2⟩ := by
    unfold update_memory appendBackground addTopics addTopic evictLow
    simp [hs1, hs2, hb1, hb2, countOf, setCount, addTopics]
  rw [h2]
  exact ⟨rfl, by simp, by simp [countOf], rfl⟩

theorem C9_double_update_witness :
    (update_memory (update_memory initMemory (.arr [.str "t"]) (.str "same fact"))
        (.arr [.str "t"]) (.str "same fact")).background_knowledge = ["same fact"] ∧
    "t" ∈ (update_memory (update_memory initMemory (.arr [.str "t"]) (.str "same fact"))
        (.arr [.str "t"]) (.str "same fact")).related_topics ∧
    countOf (update_memory (update_memory initMemory (.arr [.str "t"]) (.str "same fact"))
        (.arr [.str "t"]) (.str "same fact")).topic_counts "t" = 2 ∧
    (update_memory (update_memory initMemory (.arr [.str "t"]) (.str "same fact"))
        (.arr [.str "t"]) (.str "same fact")).topic_total_count = 2 :=
  C9_double_update "t" "same fact" rfl (by decide) rfl (by decide)

/-- C8 (counterexample): the claim states the parser returns null when no
brace pair exists, but tier 1 parses the whole text as JSON, so brace-free
JSON such as the bare scalar "3" is returned as a value. -/
theorem C8_counterexample :
    findIdx "3".data '\x7b' = none ∧ braceSpan "3" = none ∧
    parse_json_strict "3" = some (.num 3) ∧ parse_json_strict "3" ≠ none := by
  refine ⟨rfl, rfl, rfl, ?_⟩
  intro h
  rw [show parse_json_strict "3" = some (.num 3) from rfl] at h
  exact Option.noConfusion h

/-- C8 (amended): the recovery parser tries three tiers in order and
returns the first success — whole text, fenced brace span, unconditional
brace span — and returns null when all three fail; when no brace pair
exists tiers 2 and 3 necessarily fail, but tier 1 alone may still succeed
(for example on a bare JSON scalar).  The four concrete examples behave as
specified. -/
theorem C8_parse_recovery :
    (∀ s : String, parse_json_strict s =
      ((loads s).orElse (fun _ =>
        ((if hasCodeFence s then (braceSpan s).bind loads else none).orElse (fun _ =>
          (braceSpan s).bind loads))))) ∧
    (∀ s : String, loads s = none → (braceSpan s).bind loads = none →
      parse_json_strict s = none) ∧
    parse_json_strict "\x7b\"a\":1\x7d" = some (.obj [("a", .num 1)]) ∧
    parse_json_strict " prefix ```json\n\x7b\"a\":1\x7d\n``` suffix" =
      some (.obj [("a", .num 1)]) ∧
    parse_json_strict "no braces here" = none ∧
    parse_json_strict "\x7b\"a\": \x7b\"b\": 1\x7d\x7d trailing" =
      some (.obj [("a", .obj [("b", .num 1)])]) := by
  have tiers : ∀ s : String, parse_json_strict s =
      ((loads s).orElse (fun _ =>
        ((if hasCodeFence s then (braceSpan s).bind loads else none).orElse (fun _ =>
          (braceSpan s).bind loads)))) := by
    intro s
    by_cases hs : s = ""
    · subst hs
      rfl
    · unfold parse_json_strict
      rw [if_neg hs]
      cases loads s with
      | some v => rfl
      | none =>
        cases hif : (if hasCodeFence s then (braceSpan s).bind loads else none) with
        | some v => simp [hif, Option.orElse]
        | none =>
          cases hbs : (braceSpan s).bind loads with
          | some v => simp [hif, hbs, Option.orElse]
          | none => simp [hif, hbs, Option.orElse]
  refine ⟨tiers, ?_, rfl, rfl, rfl, rfl⟩
  intro s h1 h2
  rw [tiers s, h1, h2]
  by_cases hf : hasCodeFence s
  · simp [hf, h2, Option.orElse]
  · simp [hf, Option.orElse]

/-- The background value the review branch extracts and feeds to the
memory update: `preflight_json.get("background_knowledge") or ""`. -/
def reviewBackground (kvs : List (String × Json)) : Json :=
  pyOr ((jLookup kvs "background_knowledge").getD .null) (.str "")

/-- The topics value: `preflight_json.get("related_topics") or []`. -/
def reviewTopics (kvs : List (String × Json)) : Json :=
  pyOr ((jLookup kvs "related_topics").getD .null) (.arr [])

/-- The non-question content summary:
`content_summary or fixed_text or question or text`. -/
def nonQuestionSummary (text : String) (kvs : List (String × Json)) : Json :=
  pyOr ((jLookup kvs "content_summary").getD .null)
    (pyOr ((jLookup kvs "fixed_text").getD .null)
      (pyOr ((jLookup kvs "question").getD .null) (.str text)))

/-- The parsed review branch on a dict whose `content_type` lowercases to
something other than "question": the memory update runs, then the
non-question summary is returned. -/
theorem reviewStage_nonQuestion (text : String) (kvs : List (String × Json))
    (m : Memory) (ct : String)
    (hct : jLookup kvs "content_type" = some (.str ct))
    (hct1 : ct ≠ "")
    (hct2 : pyLowerStr ct ≠ "question")
    (hiter : ∃ l, pyIter (reviewTopics kvs) = .ok l) :
    reviewStage text (.obj kvs) m =
      .ok (.nonQuestion (nonQuestionSummary text kvs)
        (update_memory m (reviewTopics kvs) (reviewBackground kvs))) := by
  obtain ⟨l, hl⟩ := hiter
  rw [reviewTopics] at hl
  simp only [pyOr, Json.truthy] at hl
  simp only [reviewStage, wr, pyGetOr, pyGet, pyLower, hct, Option.getD_some, pyOr,
    Json.truthy, hct1, if_neg, if_false, Except.mapError, bind, Except.bind, pure,
    Except.pure, hct2, ite_not, hl, reviewTopics, reviewBackground, nonQuestionSummary]
  simp [hct1, hct2]

/-- C6: whenever the parsed stage-1 review is a (truthy) dict whose
content_type is not "question", the multi-stage run returns the
non-question summary, terminates after exactly one successful request with
no stage-2 request, and the memory update with the review's topics and
background is performed before that early return. -/
theorem C6_nonQuestion_early_return (cfg : Config) (text : String) (m : Memory)
    (o : Oracle) (s : String) (kvs : List (String × Json)) (ct : String)
    (hN : 0 < cfg.retry_attempts)
    (h0 : o 0 = .ok (mkBody s))
    (hp : parse_json_strict s = some (.obj kvs))
    (hne : kvs ≠ [])
    (hct : jLookup kvs "content_type" = some (.str ct))
    (hct1 : ct ≠ "")
    (hct2 : pyLowerStr ct ≠ "question")
    (hiter : ∃ l, pyIter (reviewTopics kvs) = .ok l) :
    runMulti cfg text m o =
      ⟨.nonQuestion (nonQuestionSummary text kvs),
       [⟨"preprocessing", cfg.fast_model⟩],
       update_memory m (reviewTopics kvs) (reviewBackground kvs), none⟩ := by
  obtain ⟨n, hn⟩ : ∃ n, cfg.retry_attempts = n + 1 := ⟨cfg.retry_attempts - 1, by omega⟩
  unfold runMulti
  rw [hn]
  have hstep : stage1Loop cfg o (n + 1) ⟨0, [], none, m⟩ none =
      (⟨1, [⟨"preprocessing", cfg.fast_model⟩], none, m⟩, .ok (some (.obj kvs))) := by
    simp only [stage1Loop, sendRequest]
    rw [show o (⟨0, [], none, m⟩ : RunState).idx = Outcome.ok (mkBody s) from h0]
    simp only [contentOf_mkBody]
    rw [show parse_json_strict_of (.str s) = parse_json_strict s from rfl, hp]
    simp [optTruthy, Json.truthy, hne]
  rw [hstep]
  have htr : (Json.obj kvs).truthy = true := by simp [Json.truthy, hne]
  simp only [htr, if_pos]
  rw [reviewStage_nonQuestion text kvs m ct hct hct1 hct2 hiter]

/-- Concrete non-question review body used by the C6 witness. -/
def sNonQ : String :=
  "\x7b\"content_type\":\"non_question\",\"content_summary\":\"sched\",\"related_topics\":[\"T1\"],\"background_knowledge\":\"BG\"\x7d"

/-- The object `sNonQ` parses to. -/
def kvsNonQ : List (String × Json) :=
  [("content_type", .str "non_question"), ("content_summary", .str "sched"),
   ("related_topics", .arr [.str "T1"]), ("background_knowledge", .str "BG")]

theorem C6_nonQuestion_early_return_witness :
    runMulti cfgR3 "txt" initMemory (fun _ => .ok (mkBody sNonQ)) =
      ⟨.nonQuestion (nonQuestionSummary "txt" kvsNonQ),
       [⟨"preprocessing", cfgR3.fast_model⟩],
       update_memory initMemory (reviewTopics kvsNonQ) (reviewBackground kvsNonQ),
       none⟩ :=
  C6_nonQuestion_early_return cfgR3 "txt" initMemory (fun _ => .ok (mkBody sNonQ))
    sNonQ kvsNonQ "non_question" (by decide) rfl rfl
    (List.cons_ne_nil _ _) rfl (by decide) (by decide) ⟨[.str "T1"], rfl⟩

theorem finishAnswer_proj (st : RunState) (body : Json) (p : AnswerPayload) :
    (finishAnswer st body p).requests = st.reqs ∧
    (finishAnswer st body p).stage2 = some p := by
  unfold finishAnswer
  constructor <;> (repeat' split) <;> rfl

/-- One stage-2 step on a successful request. -/
theorem stage2Run_ok (cfg : Config) (o : Oracle) (st : RunState)
    (q opts : Json) (ct rm : String) (sl bg : Json) (body : Json)
    (hbg : memoryBgBlock st.mem bg = .ok ())
    (hopt : optionsBlockCheck opts = .ok ())
    (hsend : o st.idx = .ok body) :
    stage2Run cfg o st q opts ct rm sl bg =
      finishAnswer
        ⟨st.idx + 1, st.reqs ++ [⟨"formal answering",
          if use_reasoner rm sl then cfg.reasoning_model else cfg.fast_model⟩],
          none, st.mem⟩ body
        ⟨(if use_reasoner rm sl then cfg.reasoning_model else cfg.fast_model),
          q, opts, ct, sl⟩ := by
  unfold stage2Run
  rw [hbg, hopt]
  simp only [sendRequest, hsend]

/-- One stage-2 step on a failed request when the answering model is
already the fast tier: no fallback. -/
theorem stage2Run_err_fast (cfg : Config) (o : Oracle) (st : RunState)
    (q opts : Json) (ct rm : String) (sl bg : Json) (k : ErrKind)
    (hbg : memoryBgBlock st.mem bg = .ok ())
    (hopt : optionsBlockCheck opts = .ok ())
    (hsend : o st.idx = .err k)
    (ham : (if use_reasoner rm sl then cfg.reasoning_model else cfg.fast_model) =
      cfg.fast_model) :
    stage2Run cfg o st q opts ct rm sl bg =
      ⟨.noAnswer, st.reqs ++ [⟨"formal answering", cfg.fast_model⟩], st.mem,
        some ⟨cfg.fast_model, q, opts, ct, sl⟩⟩ := by
  unfold stage2Run
  rw [hbg, hopt]
  simp only [sendRequest, hsend, ham, if_pos]

/-- One stage-2 step on a failed request with a non-fast answering model
and a second failure: exactly one fallback request, then no answer. -/
theorem stage2Run_err_err (cfg : Config) (o : Oracle) (st : RunState)
    (q opts : Json) (ct rm : String) (sl bg : Json) (k k2 : ErrKind)
    (hbg : memoryBgBlock st.mem bg = .ok ())
    (hopt : optionsBlockCheck opts = .ok ())
    (hsend : o st.idx = .err k)
    (hsend2 : o (st.idx + 1) = .err k2)
    (ham : ¬((if use_reasoner rm sl then cfg.reasoning_model else cfg.fast_model) =
      cfg.fast_model)) :
    stage2Run cfg o st q opts ct rm sl bg =
      ⟨.noAnswer,
        st.reqs ++ [⟨"formal answering",
          if use_reasoner rm sl then cfg.reasoning_model else cfg.fast_model⟩,
          ⟨"formal answering (fallback)", cfg.fast_model⟩], st.mem,
        some ⟨(if use_reasoner rm sl then cfg.reasoning_model else cfg.fast_model),
          q, opts, ct, sl⟩⟩ := by
  unfold stage2Run
  rw [hbg, hopt]
  simp only [sendRequest, hsend, ham, if_neg, if_false, hsend2]
  simp

/-- One stage-2 step on a failed request with a non-fast answering model
and a successful fallback: the fallback body is processed as the answer. -/
theorem stage2Run_err_ok (cfg : Config) (o : Oracle) (st : RunState)
    (q opts : Json) (ct rm : String) (sl bg : Json) (k : ErrKind) (body2 : Json)
    (hbg : memoryBgBlock st.mem bg = .ok ())
    (hopt : optionsBlockCheck opts = .ok ())
    (hsend : o st.idx = .err k)
    (hsend2 : o (st.idx + 1) = .ok body2)
    (ham : ¬((if use_reasoner rm sl then cfg.reasoning_model else cfg.fast_model) =
      cfg.fast_model)) :
    stage2Run cfg o st q opts ct rm sl bg =
      finishAnswer
        ⟨st.idx + 2, st.reqs ++ [⟨"formal answering",
          if use_reasoner rm sl then cfg.reasoning_model else cfg.fast_model⟩,
          ⟨"formal answering (fallback)", cfg.fast_model⟩], none, st.mem⟩ body2
        ⟨(if use_reasoner rm sl then cfg.reasoning_model else cfg.fast_model),
          q, opts, ct, sl⟩ := by
  unfold stage2Run
  rw [hbg, hopt]
  simp only [sendRequest, hsend, ham, if_neg, if_false, hsend2]
  simp [Nat.add_assoc]

/-- Review body recommending the reasoning tier with thinking length 200. -/
def sRevR : String :=
  "\x7b\"content_type\":\"question\",\"question\":\"Q1\",\"options\":[],\"choice_type\":\"single\",\"recommended_model\":\"reasoner\",\"suggest_thinking_length\":200,\"related_topics\":[\"T\"],\"background_knowledge\":\"B\"\x7d"

/-- The same review body recommending the chat tier. -/
def sRevC : String :=
  "\x7b\"content_type\":\"question\",\"question\":\"Q1\",\"options\":[],\"choice_type\":\"single\",\"recommended_model\":\"chat\",\"suggest_thinking_length\":200,\"related_topics\":[\"T\"],\"background_knowledge\":\"B\"\x7d"

/-- A parseable final-answer body. -/
def sAns : String :=
  "\x7b\"final_answer_letters\":\"A\",\"final_answer_text\":\"ok\"\x7d"

/-- Oracle delivering a review at request 0 and then the two given
stage-2 outcomes. -/
def orc2of (r : String) (out1 out2 : Outcome) : Oracle :=
  fun i => if i = 0 then .ok (mkBody r) else if i = 1 then out1 else out2

/-- C7: with a review gating stage 2 onto the reasoning tier, a fallback
request is issued exactly once and only when the stage-2 request fails at
the transport level and the answering model is not already the fast tier;
the fallback uses the fast tier, a second failure adds no further request,
and in the timeout scenario the fallback's parsed result is returned as
the answer.  When the answering model is already the fast tier, a failure
produces no fallback. -/
theorem C7_fallback_once (out1 out2 : Outcome) :
    (∀ body, out1 = .ok body →
      (runMulti cfgR3 "t" initMemory (orc2of sRevR out1 out2)).requests =
        [⟨"preprocessing", cfgR3.fast_model⟩,
         ⟨"formal answering", cfgR3.reasoning_model⟩]) ∧
    (∀ k, out1 = .err k →
      (runMulti cfgR3 "t" initMemory (orc2of sRevR out1 out2)).requests =
        [⟨"preprocessing", cfgR3.fast_model⟩,
         ⟨"formal answering", cfgR3.reasoning_model⟩,
         ⟨"formal answering (fallback)", cfgR3.fast_model⟩]) ∧
    (out1 = .err .timeout → out2 = .ok (mkBody sAns) →
      (runMulti cfgR3 "t" initMemory (orc2of sRevR out1 out2)).kind =
        .answered (.obj [("final_answer_letters", .str "A"),
          ("final_answer_text", .str "ok")])) ∧
    (∀ k, out1 = .err k →
      (runMulti cfgR3 "t" initMemory (orc2of sRevC out1 out2)).requests =
        [⟨"preprocessing", cfgR3.fast_model⟩,
         ⟨"formal answering", cfgR3.fast_model⟩] ∧
      (runMulti cfgR3 "t" initMemory (orc2of sRevC out1 out2)).kind = .noAnswer) ∧
    (runMulti cfgR3 "t" initMemory
        (orc2of sRevR (.err .timeout) (.ok (mkBody sAns)))).kind =
      .answered (.obj [("final_answer_letters", .str "A"),
        ("final_answer_text", .str "ok")]) := by
  refine ⟨?_, ?_, ?_, ?_, rfl⟩
  · intro body h
    subst h
    have hred : runMulti cfgR3 "t" initMemory (orc2of sRevR (.ok body) out2) =
        finishAnswer
          ⟨2, [⟨"preprocessing", "deepseek-chat"⟩,
               ⟨"formal answering", "deepseek-reasoner"⟩], none,
            ⟨["T"], ["B"], [("T", 1)], 1⟩⟩ body
          ⟨"deepseek-reasoner", .str "Q1", .arr [], "single", .num 200⟩ := rfl
    rw [hred]
    exact (finishAnswer_proj _ _ _).1
  · intro k h
    subst h
    cases out2 with
    | ok body2 =>
      have hred : runMulti cfgR3 "t" initMemory (orc2of sRevR (.err k) (.ok body2)) =
          finishAnswer
            ⟨3, [⟨"preprocessing", "deepseek-chat"⟩,
                 ⟨"formal answering", "deepseek-reasoner"⟩,
                 ⟨"formal answering (fallback)", "deepseek-chat"⟩], none,
              ⟨["T"], ["B"], [("T", 1)], 1⟩⟩ body2
            ⟨"deepseek-reasoner", .str "Q1", .arr [], "single", .num 200⟩ := rfl
      rw [hred]
      exact (finishAnswer_proj _ _ _).1
    | err k2 => rfl
  · intro h1 h2
    subst h1 h2
    rfl
  · intro k h
    subst h
    exact ⟨rfl, rfl⟩

/-- General characterization of the stage-1 retry loop: some number
`k ≤ n` of identical preprocessing requests with the fast model are made,
the memory is untouched, and the loop stops early only on a truthy parse
or an extraction crash. -/
theorem stage1Loop_general (cfg : Config) (o : Oracle) (n : Nat) :
    ∀ (st : RunState) (pj : Option Json), ∃ k, k ≤ n ∧
      (stage1Loop cfg o n st pj).1.reqs =
        st.reqs ++ List.replicate k ⟨"preprocessing", cfg.fast_model⟩ ∧
      (stage1Loop cfg o n st pj).1.mem = st.mem ∧
      (k < n → (∃ e, (stage1Loop cfg o n st pj).2 = .error e) ∨
        (∃ pj', (stage1Loop cfg o n st pj).2 = .ok pj' ∧ optTruthy pj' = true)) := by
  induction n with
  | zero =>
    intro st pj
    exact ⟨0, le_refl _, by simp [stage1Loop], rfl,
      fun h => absurd h (Nat.not_lt_zero 0)⟩
  | succ n ih =>
    intro st pj
    cases hout : o st.idx with
    | err k =>
      obtain ⟨k', hk', hreqs, hmem, hstop⟩ := ih
        ⟨st.idx + 1, st.reqs ++ [⟨"preprocessing", cfg.fast_model⟩], some k, st.mem⟩ pj
      refine ⟨k' + 1, Nat.succ_le_succ hk', ?_, ?_, ?_⟩
      · simp only [stage1Loop, sendRequest, hout]
        rw [hreqs]
        simp [List.append_assoc, List.replicate_succ]
      · simp only [stage1Loop, sendRequest, hout]
        exact hmem
      · intro hlt
        have := hstop (Nat.lt_of_succ_lt_succ hlt)
        simpa only [stage1Loop, sendRequest, hout] using this
    | ok body =>
      cases hc : contentOf body with
      | error e =>
        refine ⟨1, Nat.succ_le_succ (Nat.zero_le n), ?_, ?_, ?_⟩
        · simp [stage1Loop, sendRequest, hout, hc]
        · simp only [stage1Loop, sendRequest, hout, hc]
        · intro _
          exact Or.inl ⟨e, by simp only [stage1Loop, sendRequest, hout, hc]⟩
      | ok msg =>
        by_cases hp : optTruthy (parse_json_strict_of msg) = true
        · refine ⟨1, Nat.succ_le_succ (Nat.zero_le n), ?_, ?_, ?_⟩
          · simp [stage1Loop, sendRequest, hout, hc, hp]
          · simp only [stage1Loop, sendRequest, hout, hc, hp, if_pos]
          · intro _
            refine Or.inr ⟨parse_json_strict_of msg, ?_, hp⟩
            simp only [stage1Loop, sendRequest, hout, hc, hp, if_pos]
        · obtain ⟨k', hk', hreqs, hmem, hstop⟩ := ih
            ⟨st.idx + 1, st.reqs ++ [⟨"preprocessing", cfg.fast_model⟩], none, st.mem⟩
            (parse_json_strict_of msg)
          refine ⟨k' + 1, Nat.succ_le_succ hk', ?_, ?_, ?_⟩
          · simp only [stage1Loop, sendRequest, hout, hc, hp, Bool.false_eq_true,
              if_false]
            rw [hreqs]
            simp [List.append_assoc, List.replicate_succ]
          · simp only [stage1Loop, sendRequest, hout, hc, hp, Bool.false_eq_true,
              if_false]
            exact hmem
          · intro hlt
            have := hstop (Nat.lt_of_succ_lt_succ hlt)
            simpa only [stage1Loop, sendRequest, hout, hc, hp, Bool.false_eq_true,
              if_false] using this

/-- The model the j-th single-stage attempt is sent with: the configured
model until a timeout failure downgrades a non-fast model to the fast
tier (deepseek.py 569-576). -/
def singleModelAt (cfg : Config) (o : Oracle) (cur : String) (base : Nat) : Nat → String
  | 0 => cur
  | j + 1 =>
    match o (base + j) with
    | .err .timeout =>
      if singleModelAt cfg o cur base j ≠ cfg.fast_model then cfg.fast_model
      else singleModelAt cfg o cur base j
    | _ => singleModelAt cfg o cur base j

/-- The one-step update of the current single-stage model after an attempt
with the given outcome. -/
def stepModel (cfg : Config) (cur : String) (out : Outcome) : String :=
  match out with
  | .err .timeout => if cur ≠ cfg.fast_model then cfg.fast_model else cur
  | _ => cur

theorem singleModelAt_shift (cfg : Config) (o : Oracle) (cur : String) (base : Nat) :
    ∀ j, singleModelAt cfg o (stepModel cfg cur (o base)) (base + 1) j =
      singleModelAt cfg o cur base (j + 1) := by
  intro j
  induction j with
  | zero =>
    show stepModel cfg cur (o base) = singleModelAt cfg o cur base 1
    rw [singleModelAt, Nat.add_zero]
    unfold stepModel
    cases o base with
    | ok body => rfl
    | err k => cases k <;> rfl
  | succ j ihj =>
    show (match o (base + 1 + j) with
      | Outcome.err ErrKind.timeout => _
      | _ => _) = _
    conv_rhs => rw [singleModelAt]
    rw [show base + (j + 1) = base + 1 + j by omega]
    rw [ihj]

/-- The single-stage model sequence changes only from a non-fast model to
the fast model, and only right after a timeout failure. -/
theorem singleModelAt_downgrade (cfg : Config) (o : Oracle) (cur : String)
    (base : Nat) (j : Nat)
    (h : singleModelAt cfg o cur base (j + 1) ≠ singleModelAt cfg o cur base j) :
    o (base + j) = .err .timeout ∧
    singleModelAt cfg o cur base (j + 1) = cfg.fast_model ∧
    singleModelAt cfg o cur base j ≠ cfg.fast_model := by
  cases hout : o (base + j) with
  | ok body =>
    rw [singleModelAt, hout] at h
    exact absurd rfl h
  | err k =>
    cases k with
    | timeout =>
      rw [singleModelAt, hout] at h
      have h2 : (if singleModelAt cfg o cur base j ≠ cfg.fast_model then cfg.fast_model
          else singleModelAt cfg o cur base j) ≠ singleModelAt cfg o cur base j := h
      by_cases hf : singleModelAt cfg o cur base j ≠ cfg.fast_model
      · refine ⟨rfl, ?_, hf⟩
        rw [singleModelAt, hout]
        show (if singleModelAt cfg o cur base j ≠ cfg.fast_model then cfg.fast_model
          else singleModelAt cfg o cur base j) = cfg.fast_model
        rw [if_pos hf]
      · rw [if_neg hf] at h2
        exact absurd rfl h2
    | network =>
      rw [singleModelAt, hout] at h
      exact absurd rfl h
    | http =>
      rw [singleModelAt, hout] at h
      exact absurd rfl h
    | unknown =>
      rw [singleModelAt, hout] at h
      exact absurd rfl h

/-- General characterization of the single-stage retry loop: `k ≤ n`
requests are made, all labelled "single-stage", the j-th with model
`singleModelAt`; the memory is untouched; the loop stops early only on a
truthy parse or an extraction crash. -/
theorem singleLoop_general (cfg : Config) (o : Oracle) (n : Nat) :
    ∀ (st : RunState) (cur : String) (data msg parsed : Option Json), ∃ k, k ≤ n ∧
      (singleLoop cfg o n st cur data msg parsed).1.reqs =
        st.reqs ++ (List.range k).map
          (fun j => ⟨"single-stage", singleModelAt cfg o cur st.idx j⟩) ∧
      (singleLoop cfg o n st cur data msg parsed).1.mem = st.mem ∧
      (k < n →
        (∃ e, (singleLoop cfg o n st cur data msg parsed).2 = .error e) ∨
        (∃ d m2 p, (singleLoop cfg o n st cur data msg parsed).2 = .ok (d, m2, p) ∧
          optTruthy p = true)) := by
  induction n with
  | zero =>
    intro st cur data msg parsed
    exact ⟨0, le_refl _, by simp [singleLoop], rfl,
      fun h => absurd h (Nat.not_lt_zero 0)⟩
  | succ n ih =>
    intro st cur data msg parsed
    have hrange : ∀ k', st.reqs ++ [(⟨"single-stage", cur⟩ : Req)] ++
        (List.range k').map (fun j =>
          (⟨"single-stage", singleModelAt cfg o (stepModel cfg cur (o st.idx))
            (st.idx + 1) j⟩ : Req)) =
        st.reqs ++ (List.range (k' + 1)).map
          (fun j => ⟨"single-stage", singleModelAt cfg o cur st.idx j⟩) := by
      intro k'
      have hfun : (fun j => (⟨"single-stage", singleModelAt cfg o
            (stepModel cfg cur (o st.idx)) (st.idx + 1) j⟩ : Req)) =
          (fun j => (⟨"single-stage", singleModelAt cfg o cur st.idx j⟩ : Req)) ∘
            Nat.succ := by
        funext j
        show Req.mk _ _ = Req.mk _ _
        rw [singleModelAt_shift]
      rw [List.append_assoc, List.singleton_append, List.range_succ_eq_map,
        List.map_cons, List.map_map]
      congr 1
      congr 1
      rw [hfun]
    cases hout : o st.idx with
    | err k =>
      have hmodel : singleLoop cfg o (n + 1) st cur data msg parsed =
          singleLoop cfg o n
            ⟨st.idx + 1, st.reqs ++ [⟨"single-stage", cur⟩], some k, st.mem⟩
            (stepModel cfg cur (o st.idx)) data msg parsed := by
        simp only [singleLoop, sendRequest, hout, stepModel]
        cases k with
        | timeout => by_cases hf : cur ≠ cfg.fast_model <;> simp [hf]
        | network => simp
        | http => simp
        | unknown => simp
      obtain ⟨k', hk', hreqs, hmem, hstop⟩ := ih
        ⟨st.idx + 1, st.reqs ++ [⟨"single-stage", cur⟩], some k, st.mem⟩
        (stepModel cfg cur (o st.idx)) data msg parsed
      refine ⟨k' + 1, Nat.succ_le_succ hk', ?_, ?_, ?_⟩
      · rw [hmodel, hreqs, ← hrange k']
      · rw [hmodel]
        exact hmem
      · intro hlt
        rw [hmodel]
        exact hstop (Nat.lt_of_succ_lt_succ hlt)
    | ok body =>
      cases hc : contentOf body with
      | error e =>
        have h0 : singleModelAt cfg o cur st.idx 0 = cur := rfl
        refine ⟨1, Nat.succ_le_succ (Nat.zero_le n), ?_, ?_, ?_⟩
        · simp [singleLoop, sendRequest, hout, hc, List.range_succ]
          exact h0.symm
        · simp only [singleLoop, sendRequest, hout, hc]
        · intro _
          exact Or.inl ⟨e, by simp only [singleLoop, sendRequest, hout, hc]⟩
      | ok msg2 =>
        by_cases hp : optTruthy (parse_json_strict_of msg2) = true
        · have h0 : singleModelAt cfg o cur st.idx 0 = cur := rfl
          refine ⟨1, Nat.succ_le_succ (Nat.zero_le n), ?_, ?_, ?_⟩
          · simp [singleLoop, sendRequest, hout, hc, hp, List.range_succ]
            exact h0.symm
          · simp only [singleLoop, sendRequest, hout, hc, hp, if_pos]
          · intro _
            refine Or.inr ⟨some body, some msg2, parse_json_strict_of msg2, ?_, hp⟩
            simp only [singleLoop, sendRequest, hout, hc, hp, if_pos]
        · have hmodel : singleLoop cfg o (n + 1) st cur data msg parsed =
              singleLoop cfg o n
                ⟨st.idx + 1, st.reqs ++ [⟨"single-stage", cur⟩], none, st.mem⟩
                (stepModel cfg cur (o st.idx)) (some body) (some msg2)
                (parse_json_strict_of msg2) := by
            simp only [singleLoop, sendRequest, hout, hc, hp, Bool.false_eq_true,
              if_false, stepModel]
          obtain ⟨k', hk', hreqs, hmem, hstop⟩ := ih
            ⟨st.idx + 1, st.reqs ++ [⟨"single-stage", cur⟩], none, st.mem⟩
            (stepModel cfg cur (o st.idx)) (some body) (some msg2)
            (parse_json_strict_of msg2)
          refine ⟨k' + 1, Nat.succ_le_succ hk', ?_, ?_, ?_⟩
          · rw [hmodel, hreqs, ← hrange k']
          · rw [hmodel]
            exact hmem
          · intro hlt
            rw [hmodel]
            exact hstop (Nat.lt_of_succ_lt_succ hlt)

/-- Stage 2 appends at most two requests: one answer request, and a
fallback (with the fast model) only when the answer request failed at the
transport level and the answering model was not already the fast tier. -/
theorem stage2Run_request_bound (cfg : Config) (o : Oracle) (st : RunState)
    (q opts : Json) (ct rm : String) (sl bg : Json) :
    ∃ rs, (stage2Run cfg o st q opts ct rm sl bg).requests = st.reqs ++ rs ∧
      rs.length ≤ 2 ∧
      (rs.length = 2 → (∃ k, o st.idx = .err k) ∧
        rs = [⟨"formal answering",
                if use_reasoner rm sl then cfg.reasoning_model else cfg.fast_model⟩,
              ⟨"formal answering (fallback)", cfg.fast_model⟩] ∧
        ¬((if use_reasoner rm sl then cfg.reasoning_model else cfg.fast_model) =
          cfg.fast_model)) := by
  cases hbg : memoryBgBlock st.mem bg with
  | error e =>
    refine ⟨[], ?_, by simp, by simp⟩
    unfold stage2Run
    rw [hbg]
    simp
  | ok u =>
    cases hopt : optionsBlockCheck opts with
    | error e =>
      refine ⟨[], ?_, by simp, by simp⟩
      unfold stage2Run
      rw [hbg, hopt]
      simp
    | ok u2 =>
      cases hout : o st.idx with
      | ok body =>
        refine ⟨[⟨"formal answering",
          if use_reasoner rm sl then cfg.reasoning_model else cfg.fast_model⟩],
          ?_, by simp, by simp⟩
        have := stage2Run_ok cfg o st q opts ct rm sl bg body hbg hopt hout
        rw [this, (finishAnswer_proj _ _ _).1]
      | err k =>
        by_cases ham : (if use_reasoner rm sl then cfg.reasoning_model
            else cfg.fast_model) = cfg.fast_model
        · refine ⟨[⟨"formal answering", cfg.fast_model⟩], ?_, by simp, by simp⟩
          rw [stage2Run_err_fast cfg o st q opts ct rm sl bg k hbg hopt hout ham]
        · refine ⟨[⟨"formal answering",
              if use_reasoner rm sl then cfg.reasoning_model else cfg.fast_model⟩,
              ⟨"formal answering (fallback)", cfg.fast_model⟩], ?_, by simp,
              fun _ => ⟨⟨k, rfl⟩, rfl, ham⟩⟩
          cases hout2 : o (st.idx + 1) with
          | ok body2 =>
            have := stage2Run_err_ok cfg o st q opts ct rm sl bg k body2
              hbg hopt hout hout2 ham
            rw [this, (finishAnswer_proj _ _ _).1]
          | err k2 =>
            rw [stage2Run_err_err cfg o st q opts ct rm sl bg k k2
              hbg hopt hout hout2 ham]

/-- Oracle for the C3 counterexample: a parseable review, then an
unparseable answer, then a parseable answer that is never requested. -/
def orcC3 : Oracle := fun i =>
  if i = 0 then .ok (mkBody sRevC)
  else if i = 1 then .ok (mkBody "junk")
  else .ok (mkBody sAns)

/-- C3 (counterexample): with three retry attempts configured, a stage-2
answer whose payload does not parse is not re-attempted: the run stops at
two total requests and reports the parse failure even though the next
response body would have parsed. -/
theorem C3_counterexample :
    cfgR3.retry_attempts = 3 ∧
    (runMulti cfgR3 "t" initMemory orcC3).requests =
      [⟨"preprocessing", "deepseek-chat"⟩, ⟨"formal answering", "deepseek-chat"⟩] ∧
    (runMulti cfgR3 "t" initMemory orcC3).kind = .answerParseFailed (.str "junk") ∧
    optTruthy (parse_json_strict_of (.str sAns)) = true :=
  ⟨rfl, rfl, rfl, rfl⟩

/-- C3 (amended): the stage-1 review request and the single-stage request
are re-attempted up to `retry_attempts` times until a truthy parsed JSON
object is obtained (stopping early otherwise only by raising), with request
parameters unchanged across attempts except the single-stage
timeout-triggered downgrade to the fast tier (models change only from a
non-fast model to the fast model and only right after a timeout failure);
the stage-2 answer request, by contrast, is issued exactly once, with at
most one fast-tier fallback and no retry loop. -/
theorem C3_retry_discipline :
    (∀ (cfg : Config) (o : Oracle) (n : Nat) (st : RunState) (pj : Option Json),
      ∃ k, k ≤ n ∧
        (stage1Loop cfg o n st pj).1.reqs =
          st.reqs ++ List.replicate k ⟨"preprocessing", cfg.fast_model⟩ ∧
        (k < n → (∃ e, (stage1Loop cfg o n st pj).2 = .error e) ∨
          (∃ pj', (stage1Loop cfg o n st pj).2 = .ok pj' ∧ optTruthy pj' = true))) ∧
    (∀ (cfg : Config) (o : Oracle) (n : Nat) (st : RunState) (cur : String)
        (data msg parsed : Option Json),
      ∃ k, k ≤ n ∧
        (singleLoop cfg o n st cur data msg parsed).1.reqs =
          st.reqs ++ (List.range k).map
            (fun j => ⟨"single-stage", singleModelAt cfg o cur st.idx j⟩) ∧
        (k < n →
          (∃ e, (singleLoop cfg o n st cur data msg parsed).2 = .error e) ∨
          (∃ d m2 p, (singleLoop cfg o n st cur data msg parsed).2 = .ok (d, m2, p) ∧
            optTruthy p = true))) ∧
    (∀ (cfg : Config) (o : Oracle) (cur : String) (base j : Nat),
      singleModelAt cfg o cur base (j + 1) ≠ singleModelAt cfg o cur base j →
        o (base + j) = .err .timeout ∧
        singleModelAt cfg o cur base (j + 1) = cfg.fast_model ∧
        singleModelAt cfg o cur base j ≠ cfg.fast_model) ∧
    (∀ (cfg : Config) (o : Oracle) (st : RunState) (q opts : Json)
        (ct rm : String) (sl bg : Json),
      ∃ rs, (stage2Run cfg o st q opts ct rm sl bg).requests = st.reqs ++ rs ∧
        rs.length ≤ 2 ∧
        (rs.length = 2 → (∃ k, o st.idx = .err k) ∧
          rs = [⟨"formal answering",
                  if use_reasoner rm sl then cfg.reasoning_model else cfg.fast_model⟩,
                ⟨"formal answering (fallback)", cfg.fast_model⟩] ∧
          ¬((if use_reasoner rm sl then cfg.reasoning_model else cfg.fast_model) =
            cfg.fast_model))) := by
  refine ⟨?_, ?_, ?_, ?_⟩
  · intro cfg o n st pj
    obtain ⟨k, hk, hreqs, _, hstop⟩ := stage1Loop_general cfg o n st pj
    exact ⟨k, hk, hreqs, hstop⟩
  · intro cfg o n st cur data msg parsed
    obtain ⟨k, hk, hreqs, _, hstop⟩ := singleLoop_general cfg o n st cur data msg parsed
    exact ⟨k, hk, hreqs, hstop⟩
  · intro cfg o cur base j h
    exact singleModelAt_downgrade cfg o cur base j h
  · intro cfg o st q opts ct rm sl bg
    exact stage2Run_request_bound cfg o st q opts ct rm sl bg

end DeepSeek
